import Mathlib

/-!
Verification development for the Amedaus travel-planning backend.

The definitions below are a shallow embedding of the repository's core
conversational logic: the regex-based intent extractors, the in-memory
conversation state store (`App/model/chat_memory.py`), the dialogue policy
(`App/services/chatbot_service.py`), and the plan-enhancement entry point.

Python `re.search` is embedded by a small backtracking engine over `List Char`
(`runs` / `research`) that reproduces Python's leftmost-position, left-biased
alternation and greedy-quantifier semantics for the pattern fragment actually
used by the source (literals, character classes, greedy `+` over a class,
`?`, alternation, one capture group and `$`).  Python dicts are embedded as
association lists with first-occurrence lookup, in-place overwrite on key
collision and append on fresh keys, which is observationally faithful for the
unique-key dicts Python produces.  `datetime` values are embedded as integer
second counts.  Python exceptions are embedded by `Except PyErr`.
-/

namespace Amedaus

/-! ## Association lists with Python dict semantics -/

/-- Lookup of the first binding of `key`, as Python `d[key]` / `d.get(key)`. -/
def lookupA {α : Type} : List (String × α) → String → Option α
  | [], _ => none
  | (k, v) :: rest, key => if k = key then some v else lookupA rest key

/-- Python `d[key] = v`: overwrite the existing binding in place, else append. -/
def setA {α : Type} : List (String × α) → String → α → List (String × α)
  | [], key, v => [(key, v)]
  | (k, w) :: rest, key, v =>
      if k = key then (k, v) :: rest else (k, w) :: setA rest key v

/-- Python `d.update(u)`: set every binding of `u` into `d`, in order. -/
def updA {α : Type} (d u : List (String × α)) : List (String × α) :=
  u.foldl (fun acc kv => setA acc kv.1 kv.2) d

/-! ## Python values and errors -/

/-- The Python values that flow through the chatbot's plan dictionaries. -/
inductive PyVal : Type where
  | pnone : PyVal
  | pstr : String → PyVal
  | pint : Int → PyVal
  | plist : List PyVal → PyVal
  | pdict : List (String × PyVal) → PyVal

/-- Python exception kinds raised by the embedded code. -/
inductive PyErr : Type where
  | keyError : PyErr
  | typeError : PyErr
  | attributeError : PyErr
  | valueError : PyErr
  | exception : String → PyErr
deriving DecidableEq

/-- Python truthiness of the embedded values. -/
def pyTruthy : PyVal → Bool
  | .pnone => false
  | .pstr s => !s.isEmpty
  | .pint n => n ≠ 0
  | .plist xs => !xs.isEmpty
  | .pdict kvs => !kvs.isEmpty

/-- Python `str(v)` as used inside the source's f-strings (scalar values only
reach it in the code; containers get a structural rendering). -/
def pyStr : PyVal → String
  | .pnone => "None"
  | .pstr s => s
  | .pint n => toString n
  | .plist _ => "[...]"
  | .pdict _ => "\x7b...\x7d"

/-! ## Character classes and Python string helpers -/

/-- Python `\s` on the ASCII range. -/
def pySpace (c : Char) : Bool :=
  c == ' ' || c == '\t' || c == '\n' || c == '\x0d' || c == '\x0b' || c == '\x0c'

def asciiUpper (c : Char) : Bool := 65 ≤ c.toNat && c.toNat ≤ 90

def asciiLower (c : Char) : Bool := 97 ≤ c.toNat && c.toNat ≤ 122

def asciiAlpha (c : Char) : Bool := asciiLower c || asciiUpper c

/-- The regex class `[a-zA-Z\s]`. -/
def alphaSpace (c : Char) : Bool := asciiAlpha c || pySpace c

/-- Python `\d` on the ASCII range. -/
def digitC (c : Char) : Bool := 48 ≤ c.toNat && c.toNat ≤ 57

/-- Python `\w` on the ASCII range. -/
def wordC (c : Char) : Bool := asciiAlpha c || digitC c || c == '_'

/-- Python `str.lower` on one ASCII character. -/
def pyLowerChar (c : Char) : Char :=
  if asciiUpper c then Char.ofNat (c.toNat + 32) else c

/-- Python `str.lower` (ASCII fragment). -/
def pyLowerL (s : List Char) : List Char := s.map pyLowerChar

/-- Python `str.strip`: drop whitespace from both ends. -/
def pyStripL (s : List Char) : List Char :=
  ((s.dropWhile pySpace).reverse.dropWhile pySpace).reverse

/-- Whether `pat` is a prefix of `s`. -/
def leadsWith : List Char → List Char → Bool
  | [], _ => true
  | _ :: _, [] => false
  | p :: ps, c :: cs => p == c && leadsWith ps cs

/-- Python `pat in s`: substring containment. -/
def containsSub : List Char → List Char → Bool
  | [], pat => leadsWith pat []
  | c :: rest, pat => leadsWith pat (c :: rest) || containsSub rest pat

/-- Whether `pat` is a suffix of `s`. -/
def endsWithL (s pat : List Char) : Bool := leadsWith pat.reverse s.reverse

/-- Python `int` applied to a nonempty string of ASCII digits. -/
def digitsToNat (l : List Char) : Nat :=
  l.foldl (fun acc c => acc * 10 + (c.toNat - 48)) 0

/-! ## A backtracking regex engine with Python `re.search` semantics -/

/-- The regex fragment used by the source: literals, single-character classes,
concatenation, left-biased alternation, greedy `?`, greedy `+` over a class,
one capture group, and the `$` anchor. -/
inductive RE : Type where
  | eps : RE
  | lit : Char → RE
  | cls : (Char → Bool) → RE
  | seq : RE → RE → RE
  | alt : RE → RE → RE
  | opt : RE → RE
  | plus : (Char → Bool) → RE
  | grp : RE → RE
  | eol : RE

/-- The suffixes `s.drop n, s.drop (n-1), …, s.drop 1`: the greedy-first
backtracking order of `+` when the maximal run has length `n`. -/
def descRuns : Nat → List Char → List (List Char)
  | 0, _ => []
  | n + 1, s => s.drop (n + 1) :: descRuns n s

/-- First-`some` choice, used to merge the (single) capture group's value. -/
def orOpt {α : Type} : Option α → Option α → Option α
  | some a, _ => some a
  | none, b => b

/-- All ways the pattern can match a prefix of `s`, in Python's backtracking
priority order; each result is the remaining suffix and the capture (if the
group participated). -/
def runs : RE → List Char → List (List Char × Option (List Char))
  | .eps, s => [(s, none)]
  | .lit _, [] => []
  | .lit c, x :: xs => if x == c then [(xs, none)] else []
  | .cls _, [] => []
  | .cls p, x :: xs => if p x then [(xs, none)] else []
  | .seq a b, s =>
      (runs a s).flatMap (fun r1 => (runs b r1.1).map (fun r2 => (r2.1, orOpt r1.2 r2.2)))
  | .alt a b, s => runs a s ++ runs b s
  | .opt a, s => runs a s ++ [(s, none)]
  | .plus p, s => (descRuns (s.takeWhile p).length s).map (fun t => (t, none))
  | .grp a, s => (runs a s).map (fun r => (r.1, some (s.take (s.length - r.1.length))))
  | .eol, s => if s.isEmpty then [(s, none)] else []

/-- Python `re.search`: try each start position left to right, and at each
position take the engine's highest-priority match. -/
def research (re : RE) : List Char → Option (List Char × Option (List Char))
  | [] => (runs re []).head?
  | c :: rest =>
      match (runs re (c :: rest)).head? with
      | some r => some r
      | none => research re rest

/-- `m.group(1)` of the first match of `re` in `s`, if any. -/
def searchGroup (re : RE) (s : List Char) : Option (List Char) :=
  (research re s).bind (fun r => r.2)

/-- The regex matching a literal string. -/
def litsRE : List Char → RE
  | [] => .eps
  | c :: cs => .seq (.lit c) (litsRE cs)

def strRE (s : String) : RE := litsRE s.data

/-- `\s+`. -/
def spacesPlus : RE := .plus pySpace

/-! ## The source's regex patterns (`ChatbotService._extract_*`) -/

/-- `from\s+([a-zA-Z\s]+)(?:\s+to|\s+and)`. -/
def originRE : RE :=
  .seq (strRE "from")
    (.seq spacesPlus
      (.seq (.grp (.plus alphaSpace))
        (.alt (.seq spacesPlus (strRE "to")) (.seq spacesPlus (strRE "and")))))

/-- `to\s+([a-zA-Z\s]+)`. -/
def destRE : RE := .seq (strRE "to") (.seq spacesPlus (.grp (.plus alphaSpace)))

/-- `(?:st|nd|rd|th)`. -/
def ordSufRE : RE := .alt (strRE "st") (.alt (strRE "nd") (.alt (strRE "rd") (strRE "th")))

/-- `\d{4}`. -/
def fourDigitsRE : RE :=
  .seq (.cls digitC) (.seq (.cls digitC) (.seq (.cls digitC) (.cls digitC)))

/-- `\d{1,2}(?:st|nd|rd|th)?\s+\w+(?:\s+\d{4})?`: the captured date phrase. -/
def datePhraseRE : RE :=
  .seq (.cls digitC)
    (.seq (.opt (.cls digitC))
      (.seq (.opt ordSufRE)
        (.seq spacesPlus
          (.seq (.plus wordC) (.opt (.seq spacesPlus fourDigitsRE))))))

/-- `(?:on|departing|leaving)(?:\s+on)?\s+(\d{1,2}(?:st|nd|rd|th)?\s+\w+(?:\s+\d{4})?)`. -/
def departureRE : RE :=
  .seq (.alt (strRE "on") (.alt (strRE "departing") (strRE "leaving")))
    (.seq (.opt (.seq spacesPlus (strRE "on")))
      (.seq spacesPlus (.grp datePhraseRE)))

/-- `(?:return|returning|coming back)(?:\s+on)?\s+(\d{1,2}(?:st|nd|rd|th)?\s+\w+(?:\s+\d{4})?)`. -/
def returnRE : RE :=
  .seq (.alt (strRE "return") (.alt (strRE "returning") (strRE "coming back")))
    (.seq (.opt (.seq spacesPlus (strRE "on")))
      (.seq spacesPlus (.grp datePhraseRE)))

/-- `(\d+)\s+(?:adult|adults|people|passengers)`. -/
def adultsRE : RE :=
  .seq (.grp (.plus digitC))
    (.seq spacesPlus
      (.alt (strRE "adult") (.alt (strRE "adults") (.alt (strRE "people") (strRE "passengers")))))

/-- `(?:$|\.|\?|,)`. -/
def endPunctRE : RE := .alt .eol (.alt (.lit '.') (.alt (.lit '?') (.lit ',')))

/-- `(?:in|at)\s+([a-zA-Z\s]+)(?:$|\.|\?|,|\s+for)`. -/
def hotelCityRE : RE :=
  .seq (.alt (strRE "in") (strRE "at"))
    (.seq spacesPlus
      (.seq (.grp (.plus alphaSpace))
        (.alt .eol (.alt (.lit '.') (.alt (.lit '?') (.alt (.lit ',') (.seq spacesPlus (strRE "for"))))))))

/-- `\(([A-Z]{3})\)`. -/
def cityCodeRE : RE :=
  .seq (.lit '(')
    (.seq (.grp (.seq (.cls asciiUpper) (.seq (.cls asciiUpper) (.cls asciiUpper))))
      (.lit ')'))

/-- `(?:in|within)\s+([a-zA-Z\s]+)(?:$|\.|\?|,)`. -/
def countryRE : RE :=
  .seq (.alt (strRE "in") (strRE "within"))
    (.seq spacesPlus (.seq (.grp (.plus alphaSpace)) endPunctRE))

/-- `(?:like|named|called)\s+([a-zA-Z\s]+)(?:$|\.|\?|,|\s+in)`. -/
def keywordRE : RE :=
  .seq (.alt (strRE "like") (.alt (strRE "named") (strRE "called")))
    (.seq spacesPlus
      (.seq (.grp (.plus alphaSpace))
        (.alt .eol (.alt (.lit '.') (.alt (.lit '?') (.alt (.lit ',') (.seq spacesPlus (strRE "in"))))))))

/-- `(?:in|at|near|around)\s+([a-zA-Z\s]+)(?:$|\.|\?|,)`. -/
def activityLocRE : RE :=
  .seq (.alt (strRE "in") (.alt (strRE "at") (.alt (strRE "near") (strRE "around"))))
    (.seq spacesPlus (.seq (.grp (.plus alphaSpace)) endPunctRE))

/-! ## Intent extraction (`ChatbotService._extract_*_info`) -/

/-- The dictionary `_extract_flight_info` returns on success. -/
structure FlightInfo : Type where
  origin : List Char
  destination : List Char
  departure_date : Option (List Char)
  return_date : Option (List Char)
  adults : Nat
deriving DecidableEq

/-- `ChatbotService._extract_flight_info`. -/
def extract_flight_info (message : List Char) : Option FlightInfo :=
  if !containsSub message ("flight".data) && !containsSub message ("fly".data) then
    none
  else
    match searchGroup originRE message, searchGroup destRE message with
    | some o, some d =>
        some { origin := pyStripL o
               destination := pyStripL d
               departure_date := searchGroup departureRE message
               return_date := searchGroup returnRE message
               adults := match searchGroup adultsRE message with
                         | some ds => digitsToNat ds
                         | none => 1 }
    | _, _ => none

/-- The dictionary `_extract_hotel_info` returns on success. -/
structure HotelInfo : Type where
  city : List Char
  city_code : Option (List Char)
deriving DecidableEq

/-- `ChatbotService._extract_hotel_info`. -/
def extract_hotel_info (message : List Char) : Option HotelInfo :=
  if !containsSub message ("hotel".data) && !containsSub message ("accommodation".data)
      && !containsSub message ("stay".data) then
    none
  else
    match searchGroup hotelCityRE message with
    | none => none
    | some cityRaw =>
        let city := pyStripL cityRaw
        some { city := city, city_code := searchGroup cityCodeRE city }

/-- The dictionary `_extract_city_info` returns on success. -/
structure CityInfo : Type where
  country : List Char
  keyword : Option (List Char)
deriving DecidableEq

/-- `ChatbotService._extract_city_info`. -/
def extract_city_info (message : List Char) : Option CityInfo :=
  if !containsSub message ("city".data) && !containsSub message ("cities".data)
      && !containsSub message ("places".data) then
    none
  else
    match searchGroup countryRE message with
    | none => none
    | some countryRaw =>
        some { country := pyStripL countryRaw
               keyword := (searchGroup keywordRE message).map pyStripL }

/-- The dictionary `_extract_activity_info` returns on success. -/
structure ActivityInfo : Type where
  location : List Char
deriving DecidableEq

/-- `ChatbotService._extract_activity_info`. -/
def extract_activity_info (message : List Char) : Option ActivityInfo :=
  if !containsSub message ("activity".data) && !containsSub message ("activities".data)
      && !containsSub message ("things to do".data) && !containsSub message ("attractions".data) then
    none
  else
    match searchGroup activityLocRE message with
    | none => none
    | some locRaw => some { location := pyStripL locRaw }

/-- The country lookup table of `ChatbotService._get_country_code`. -/
def country_mapping : List (String × String) :=
  [("united states", "US"), ("usa", "US"), ("america", "US"),
   ("united kingdom", "GB"), ("uk", "GB"),
   ("france", "FR"), ("germany", "DE"), ("italy", "IT"), ("spain", "ES"),
   ("japan", "JP"), ("china", "CN"), ("india", "IN"), ("australia", "AU"),
   ("canada", "CA"), ("brazil", "BR"), ("mexico", "MX"), ("russia", "RU"),
   ("south korea", "KR"), ("korea", "KR"), ("netherlands", "NL"),
   ("sweden", "SE"), ("norway", "NO"), ("denmark", "DK"), ("finland", "FI"),
   ("singapore", "SG"), ("thailand", "TH"), ("indonesia", "ID"),
   ("malaysia", "MY"), ("vietnam", "VN"), ("turkey", "TR"), ("egypt", "EG"),
   ("south africa", "ZA"), ("nigeria", "NG"), ("kenya", "KE"), ("morocco", "MA"),
   ("united arab emirates", "AE"), ("uae", "AE"), ("dubai", "AE"),
   ("saudi arabia", "SA"), ("qatar", "QA"), ("new zealand", "NZ"),
   ("argentina", "AR"), ("chile", "CL"), ("colombia", "CO"), ("peru", "PE"),
   ("portugal", "PT"), ("greece", "GR"), ("switzerland", "CH"), ("austria", "AT"),
   ("belgium", "BE"), ("ireland", "IE"), ("poland", "PL"),
   ("czech republic", "CZ"), ("czechia", "CZ"), ("hungary", "HU")]

/-- `ChatbotService._get_country_code`: case-insensitive table lookup. -/
def get_country_code (country_name : List Char) : Option String :=
  lookupA country_mapping (String.mk (pyLowerL country_name))

/-! ## The conversation state store (`App/model/chat_memory.py`) -/

/-- A stored chat message (`Message`); timestamps are integer seconds. -/
structure Msg : Type where
  role : String
  content : String
  timestamp : Int
deriving DecidableEq

/-- `UserContext`. -/
structure UserContext : Type where
  user_id : String
  messages : List Msg
  preferences : List (String × PyVal)
  search_history : List (String × List PyVal)
  current_plan : List (String × PyVal)
  last_interaction : Int

/-- A freshly created `UserContext(user_id=uid)`; `now` stands for the
`datetime.now()` defaults. -/
def newUserContext (uid : String) (now : Int) : UserContext :=
  { user_id := uid
    messages := []
    preferences := []
    search_history := [("flights", []), ("hotels", []), ("cities", []), ("activities", [])]
    current_plan := []
    last_interaction := now }

/-- `ChatMemoryCache.user_contexts`. -/
abbrev Memory : Type := List (String × UserContext)

/-- `ChatMemoryCache.expiry_time`: 24 hours in seconds. -/
def expiry_time : Int := 3600 * 24

/-- `ChatMemoryCache.get_user_context`: get or create (and store) the context. -/
def get_user_context (mem : Memory) (uid : String) (now : Int) : UserContext × Memory :=
  match lookupA mem uid with
  | some c => (c, mem)
  | none =>
      let c := newUserContext uid now
      (c, setA mem uid c)

/-- `ChatMemoryCache.add_message`. -/
def add_message (mem : Memory) (now : Int) (uid role content : String) : Memory :=
  let (c, mem1) := get_user_context mem uid now
  setA mem1 uid
    { c with messages := c.messages ++ [{ role := role, content := content, timestamp := now }]
             last_interaction := now }

/-- `ChatMemoryCache.get_conversation_history`. -/
def get_conversation_history (mem : Memory) (uid : String) (now : Int) (limit : Nat) :
    List Msg × Memory :=
  let (c, mem1) := get_user_context mem uid now
  (if c.messages.isEmpty then []
   else if limit = 0 then c.messages
   else c.messages.drop (c.messages.length - limit), mem1)

/-- `ChatMemoryCache.store_search_result`. -/
def store_search_result (mem : Memory) (now : Int) (uid search_type : String) (result : PyVal) :
    Memory :=
  let (c, mem1) := get_user_context mem uid now
  match lookupA c.search_history search_type with
  | some bucket =>
      setA mem1 uid
        { c with search_history := setA c.search_history search_type (bucket ++ [result])
                 last_interaction := now }
  | none => setA mem1 uid { c with last_interaction := now }

/-- `ChatMemoryCache.update_preferences`. -/
def update_preferences (mem : Memory) (now : Int) (uid : String)
    (preferences : List (String × PyVal)) : Memory :=
  let (c, mem1) := get_user_context mem uid now
  setA mem1 uid
    { c with preferences := updA c.preferences preferences, last_interaction := now }

/-- `ChatMemoryCache.update_current_plan`. -/
def update_current_plan (mem : Memory) (now : Int) (uid : String)
    (plan_data : List (String × PyVal)) : Memory :=
  let (c, mem1) := get_user_context mem uid now
  setA mem1 uid
    { c with current_plan := updA c.current_plan plan_data, last_interaction := now }

/-- `ChatMemoryCache.get_current_plan`. -/
def get_current_plan (mem : Memory) (uid : String) (now : Int) :
    List (String × PyVal) × Memory :=
  let (c, mem1) := get_user_context mem uid now
  (c.current_plan, mem1)

/-- `ChatMemoryCache.clear_expired_contexts`. -/
def clear_expired_contexts (mem : Memory) (now : Int) : Memory :=
  mem.filter (fun p => !(decide (now - p.2.last_interaction > expiry_time)))

/-! ## The dialogue policy (`ChatbotService`) -/

def firstGreetingReply : String :=
  "Hello! I'm your travel planning assistant. I can help you search for flights, hotels, cities, and activities to create a perfect tour plan. What destination are you interested in?"

def againGreetingReply : String :=
  "Hello again! How can I continue helping with your travel plans?"

def defaultReply : String :=
  "I can help you search for flights, hotels, cities, and activities to plan your tour. What would you like to know?"

def notEnoughReply : String :=
  "I don't have enough information to create a tour plan yet. Let's start by discussing your destination preferences."

def tourPlanHeader : String :=
  "Here's a summary of your tour plan based on our conversation:"

def tourPlanClosing : String :=
  "\nWould you like me to help you search for specific flights, hotels, or activities based on this plan?"

/-- `ChatbotService._is_greeting`: unanchored substring test. -/
def is_greeting (message : List Char) : Bool :=
  (["hello", "hi", "hey", "greetings", "good morning", "good afternoon", "good evening"]
    : List String).any (fun g => containsSub message g.data)

/-- `ChatbotService._get_greeting_response`. -/
def get_greeting_response (context : UserContext) : String :=
  if context.messages.isEmpty || context.messages.length ≤ 2 then firstGreetingReply
  else againGreetingReply

/-- The flight dictionary stored into preferences and into the plan. -/
def optStrVal : Option (List Char) → PyVal
  | none => .pnone
  | some l => .pstr (String.mk l)

def flightInfoVal (fi : FlightInfo) : PyVal :=
  .pdict [("origin", .pstr (String.mk fi.origin)),
          ("destination", .pstr (String.mk fi.destination)),
          ("departure_date", optStrVal fi.departure_date),
          ("return_date", optStrVal fi.return_date),
          ("adults", .pint fi.adults)]

/-- `ChatbotService._handle_flight_search`. -/
def handle_flight_search (mem : Memory) (now : Int) (uid : String) (fi : FlightInfo) :
    String × Memory :=
  let mem1 := update_preferences mem now uid [("flight_preferences", flightInfoVal fi)]
  let origin := String.mk fi.origin
  let destination := String.mk fi.destination
  let (plan, mem2) := get_current_plan mem1 uid now
  let plan2 := setA plan "flight"
    (.pdict [("origin", .pstr origin),
             ("destination", .pstr destination),
             ("departure_date", optStrVal fi.departure_date),
             ("return_date", optStrVal fi.return_date),
             ("adults", .pint fi.adults)])
  let mem3 := update_current_plan mem2 now uid plan2
  ("I've noted your flight search from " ++ origin ++ " to " ++ destination ++ ". "
     ++ "When I have more details about your trip, I'll help you find the best flights. "
     ++ "Would you like to search for hotels in " ++ destination ++ " as well?", mem3)

/-- `ChatbotService._handle_hotel_search`. -/
def handle_hotel_search (mem : Memory) (now : Int) (uid : String) (hi : HotelInfo) :
    String × Memory :=
  let city := String.mk hi.city
  match hi.city_code with
  | none =>
      ("I need a city code to search for hotels in " ++ city ++ ". "
         ++ "Could you provide the 3-letter IATA code for " ++ city
         ++ "? For example, NYC for New York City.", mem)
  | some cc =>
      let city_code := String.mk cc
      let (plan, mem1) := get_current_plan mem uid now
      let plan2 := setA plan "hotel"
        (.pdict [("city", .pstr city), ("city_code", .pstr city_code)])
      let mem2 := update_current_plan mem1 now uid plan2
      ("I've noted your interest in hotels in " ++ city ++ " (" ++ city_code ++ "). "
         ++ "Would you like to know about activities in " ++ city ++ " as well?", mem2)

/-- `ChatbotService._handle_city_search`. -/
def handle_city_search (mem : Memory) (now : Int) (uid : String) (ci : CityInfo) :
    String × Memory :=
  let country := String.mk ci.country
  match get_country_code ci.country with
  | none =>
      ("I need a country code to search for cities in " ++ country ++ ". "
         ++ "Could you provide the 2-letter ISO code for " ++ country
         ++ "? For example, US for United States.", mem)
  | some country_code =>
      match ci.keyword with
      | none => ("What kind of cities are you looking for in " ++ country ++ "?", mem)
      | some kw =>
          if kw.isEmpty then
            ("What kind of cities are you looking for in " ++ country ++ "?", mem)
          else
            let keyword := String.mk kw
            let (plan, mem1) := get_current_plan mem uid now
            let plan2 := setA plan "city_search"
              (.pdict [("country", .pstr country),
                       ("country_code", .pstr country_code),
                       ("keyword", .pstr keyword)])
            let mem2 := update_current_plan mem1 now uid plan2
            ("I've noted your interest in cities like '" ++ keyword ++ "' in " ++ country ++ ". "
               ++ "This will help me suggest destinations for your tour plan.", mem2)

/-- `ChatbotService._handle_activity_search`. -/
def handle_activity_search (mem : Memory) (now : Int) (uid : String) (ai : ActivityInfo) :
    String × Memory :=
  let location := String.mk ai.location
  let (plan, mem1) := get_current_plan mem uid now
  let plan2 := setA plan "activities" (.pdict [("location", .pstr location)])
  let mem2 := update_current_plan mem1 now uid plan2
  ("I've noted your interest in activities in " ++ location ++ ". "
     ++ "When we finalize your destination, I'll help you find exciting things to do there.", mem2)

/-! ## Tour-plan summary generation (`ChatbotService._generate_tour_plan`) -/

/-- Python `v[key]` on an embedded value. -/
def pyIndexD : PyVal → String → Except PyErr PyVal
  | .pdict kvs, k =>
      match lookupA kvs k with
      | some v => .ok v
      | none => .error .keyError
  | _, _ => .error .typeError

/-- Python `v.get(key, default)` on an embedded value. -/
def pyGetD : PyVal → String → PyVal → Except PyErr PyVal
  | .pdict kvs, k, dflt => .ok ((lookupA kvs k).getD dflt)
  | _, _, _ => .error .attributeError

/-- Python `sep.join(parts)`. -/
def pyJoinStr (sep : String) : List String → String
  | [] => ""
  | x :: xs => xs.foldl (fun acc y => acc ++ sep ++ y) x

/-- The flight lines of the summary, when a "flight" section is present. -/
def flightSectionParts (plan : List (String × PyVal)) : Except PyErr (List String) :=
  match lookupA plan "flight" with
  | none => .ok []
  | some flight => do
      let origin ← pyIndexD flight "origin"
      let destination ← pyIndexD flight "destination"
      let dep ← pyIndexD flight "departure_date"
      let line1 := "âœˆï¸ Flight: From " ++ pyStr origin ++ " to "
                     ++ pyStr destination ++ "\n   Departure: " ++ pyStr dep
      let ret ← pyGetD flight "return_date" .pnone
      let retLines := if pyTruthy ret then ["   Return: " ++ pyStr ret] else []
      let ad ← pyGetD flight "adults" (.pint 1)
      .ok ([line1] ++ retLines ++ ["   Passengers: " ++ pyStr ad ++ " adult(s)"])

/-- The hotel line of the summary, when a "hotel" section is present. -/
def hotelSectionParts (plan : List (String × PyVal)) : Except PyErr (List String) :=
  match lookupA plan "hotel" with
  | none => .ok []
  | some hotel => do
      let city ← pyIndexD hotel "city"
      let code ← pyIndexD hotel "city_code"
      .ok ["ðŸ¨ Accommodation: Hotels in " ++ pyStr city
             ++ " (" ++ pyStr code ++ ")"]

/-- The activities line of the summary, when an "activities" section is present. -/
def activitiesSectionParts (plan : List (String × PyVal)) : Except PyErr (List String) :=
  match lookupA plan "activities" with
  | none => .ok []
  | some activities => do
      let location ← pyIndexD activities "location"
      .ok ["ðŸŽ­ Activities: Exploring attractions in " ++ pyStr location]

/-- `ChatbotService._generate_tour_plan`. -/
def generate_tour_plan (mem : Memory) (uid : String) (now : Int) :
    Except PyErr (String × Memory) := do
  let (plan, mem1) := get_current_plan mem uid now
  if plan.isEmpty then
    return (notEnoughReply, mem1)
  else
    let p1 ← flightSectionParts plan
    let p2 ← hotelSectionParts plan
    let p3 ← activitiesSectionParts plan
    return (pyJoinStr "\n" ([tourPlanHeader] ++ p1 ++ p2 ++ p3 ++ [tourPlanClosing]), mem1)

/-! ## The per-turn policy (`_generate_response`, `process_message`) -/

/-- `ChatbotService._generate_response`: lowercase and strip the message, then
try greeting, flight, hotel, city, activity, tour-plan and default, in order. -/
def generate_response (mem0 : Memory) (now : Int) (user_id message0 : String) :
    Except PyErr (String × Memory) :=
  let message := pyStripL (pyLowerL message0.data)
  let (context, mem) := get_user_context mem0 user_id now
  if is_greeting message then .ok (get_greeting_response context, mem)
  else match extract_flight_info message with
  | some fi => .ok (handle_flight_search mem now user_id fi)
  | none =>
  match extract_hotel_info message with
  | some hi => .ok (handle_hotel_search mem now user_id hi)
  | none =>
  match extract_city_info message with
  | some ci => .ok (handle_city_search mem now user_id ci)
  | none =>
  match extract_activity_info message with
  | some ai => .ok (handle_activity_search mem now user_id ai)
  | none =>
  if containsSub message ("plan".data)
      && (containsSub message ("tour".data) || containsSub message ("trip".data)
            || containsSub message ("vacation".data)) then
    generate_tour_plan mem user_id now
  else .ok (defaultReply, mem)

/-- `ChatbotService.process_message`: store the user message, generate the
reply, store the reply. -/
def process_message (mem : Memory) (now : Int) (uid m : String) :
    Except PyErr (String × Memory) := do
  let mem1 := add_message mem now uid "user" m
  let (response, mem2) ← generate_response mem1 now uid m
  let mem3 := add_message mem2 now uid "assistant" response
  return (response, mem3)

/-! ## Plan enhancement (`ChatbotService.enhance_tour_plan`) -/

/-- Python `', '.join(v)` over an embedded value (list of strings joins them;
a string joins its characters; anything else raises TypeError). -/
def pyJoinComma : PyVal → Except PyErr String
  | .plist xs => do
      let parts ← xs.mapM (fun x => match x with
        | .pstr s => Except.ok s
        | _ => Except.error PyErr.typeError)
      .ok (pyJoinStr ", " parts)
  | .pstr s => .ok (pyJoinStr ", " (s.data.map Char.toString))
  | _ => .error .typeError

/-- `ChatbotService.enhance_tour_plan`, with the gateway's raw reply text as
the `raw` parameter.  The prompt is built first (its `.get` accesses can raise
on malformed sections); then the source's response clean-up runs: its guard is
the always-true `if "" in enhanced_plan`, whose branch evaluates
`enhanced_plan.split("json")[1].split("")`.  When the reply lacks "json" the
`[1]` raises IndexError, which the `except` clause converts to
`Exception("Failed to parse LLM response for enhanced plan: ...")`; when the
reply contains "json", `.split("")` raises ValueError("empty separator"),
which the `except` clause does not catch.  No path reaches `json.loads` or
mutates the plan. -/
def enhance_tour_plan (plan : List (String × PyVal)) (raw : String) :
    Except PyErr (List (String × PyVal)) := do
  let flight_info := (lookupA plan "flight").getD (.pdict [])
  let hotel_info := (lookupA plan "hotel").getD (.pdict [])
  let activities_info := (lookupA plan "activities").getD (.pdict [])
  let _o ← pyGetD flight_info "origin" (.pstr "N/A")
  let _d ← pyGetD flight_info "destination" (.pstr "N/A")
  let _dep ← pyGetD flight_info "departure_date" (.pstr "N/A")
  let _cc ← pyGetD hotel_info "city_code" (.pstr "N/A")
  let _ci ← pyGetD hotel_info "check_in_date" (.pstr "N/A")
  let _co ← pyGetD hotel_info "check_out_date" (.pstr "N/A")
  let ints ← pyGetD activities_info "interests" (.plist [.pstr "general sightseeing"])
  let _interests ← pyJoinComma ints
  let enhanced := String.mk (pyStripL raw.data)
  if containsSub enhanced.data ("json".data) then
    .error .valueError
  else
    .error (.exception "Failed to parse LLM response for enhanced plan: list index out of range")

/-! ## Observables of the state store -/

/-- The current plan a user's context holds (`[]` for an unknown user). -/
def planOf (mem : Memory) (uid : String) : List (String × PyVal) :=
  ((lookupA mem uid).map UserContext.current_plan).getD []

/-- The preferences a user's context holds (`[]` for an unknown user). -/
def prefsOf (mem : Memory) (uid : String) : List (String × PyVal) :=
  ((lookupA mem uid).map UserContext.preferences).getD []

/-- The stored messages of a user's context (`[]` for an unknown user). -/
def msgsOf (mem : Memory) (uid : String) : List Msg :=
  ((lookupA mem uid).map UserContext.messages).getD []

/-- Whether an embedded Python computation returned normally. -/
def isOkE {ε α : Type} : Except ε α → Bool
  | .ok _ => true
  | .error _ => false

/-- The last binding of `key`, which is what a fold of `setA` over a
duplicate-keyed update list makes visible. -/
def lastLookup {α : Type} : List (String × α) → String → Option α
  | [], _ => none
  | (k, v) :: rest, key =>
      match lastLookup rest key with
      | some w => some w
      | none => if k = key then some v else none

/-- Keys of an association list. -/
def keysA {α : Type} (d : List (String × α)) : List String := d.map Prod.fst

/-- The context `get_user_context` hands back: the stored one, or a fresh one. -/
def ctxOrNew (mem : Memory) (uid : String) (now : Int) : UserContext :=
  (lookupA mem uid).getD (newUserContext uid now)

/-- Whether `pat` fails against `s` within `s` itself, so that no extension of
`s` can begin with `pat`. -/
def misfit : List Char → List Char → Bool
  | _, [] => false
  | [], _ => false
  | p :: ps, c :: cs => if p == c then misfit ps cs else true

/-- Whether every nonempty suffix of `A` mismatches `pat` within `A`, so a
search for a pattern starting with the literal `pat` can skip all of `A`. -/
def skipAll (pat : List Char) : List Char → Bool
  | [] => true
  | c :: cs => misfit pat (c :: cs) && skipAll pat cs

/-- Declarative matching semantics of the regex fragment, used to reason about
what any successful engine match must have consumed. -/
inductive MatchesRE : RE → List Char → Prop where
  | eps : MatchesRE .eps []
  | lit (c : Char) : MatchesRE (.lit c) [c]
  | cls {p : Char → Bool} {c : Char} : p c = true → MatchesRE (.cls p) [c]
  | seq {a b : RE} {u v : List Char} :
      MatchesRE a u → MatchesRE b v → MatchesRE (.seq a b) (u ++ v)
  | altL {a b : RE} {u : List Char} : MatchesRE a u → MatchesRE (.alt a b) u
  | altR {a b : RE} {u : List Char} : MatchesRE b u → MatchesRE (.alt a b) u
  | optSome {a : RE} {u : List Char} : MatchesRE a u → MatchesRE (.opt a) u
  | optNone {a : RE} : MatchesRE (.opt a) []
  | plus {p : Char → Bool} {u : List Char} :
      u ≠ [] → (∀ c ∈ u, p c = true) → MatchesRE (.plus p) u
  | grp {a : RE} {u : List Char} : MatchesRE a u → MatchesRE (.grp a) u
  | eol : MatchesRE .eol []

/-! ## Lemmas: association lists -/

theorem lookupA_setA {α : Type} (d : List (String × α)) (key q : String) (v : α) :
    lookupA (setA d key v) q = if key = q then some v else lookupA d q := by
  induction d with
  | nil =>
      by_cases hq : key = q <;> simp [setA, lookupA, hq]
  | cons hd tl ih =>
      obtain ⟨k0, w⟩ := hd
      by_cases hk : k0 = key
      · subst hk
        by_cases hq : k0 = q
        · subst hq; simp [setA, lookupA]
        · simp [setA, lookupA, hq, fun h => hq (Eq.symm h)]
      · by_cases hq : k0 = q
        · subst hq
          have hkq : ¬key = k0 := fun h => hk h.symm
          simp [setA, lookupA, hk, hkq]
        · simp [setA, lookupA, hk, hq, ih]

theorem lookupA_setA_self {α : Type} (d : List (String × α)) (key : String) (v : α) :
    lookupA (setA d key v) key = some v := by
  simp [lookupA_setA]

theorem lookupA_setA_ne {α : Type} (d : List (String × α)) {key q : String} (v : α)
    (h : key ≠ q) : lookupA (setA d key v) q = lookupA d q := by
  simp [lookupA_setA, h]

theorem updA_lookup {α : Type} (u : List (String × α)) (d : List (String × α)) (q : String) :
    lookupA (updA d u) q =
      match lastLookup u q with
      | some w => some w
      | none => lookupA d q := by
  induction u generalizing d with
  | nil => simp [updA, lastLookup]
  | cons hd tl ih =>
      obtain ⟨k1, v1⟩ := hd
      show lookupA (updA (setA d k1 v1) tl) q = _
      rw [ih]
      cases htl : lastLookup tl q with
      | some w => simp [lastLookup, htl]
      | none =>
          by_cases hq : k1 = q <;> simp [lastLookup, htl, lookupA_setA, hq]

theorem lookupA_eq_none_of_not_mem {α : Type} (d : List (String × α)) (q : String)
    (h : q ∉ keysA d) : lookupA d q = none := by
  induction d with
  | nil => simp [lookupA]
  | cons hd tl ih =>
      obtain ⟨k0, v0⟩ := hd
      have h0 : ¬k0 = q := by
        intro he; exact h (by simp [keysA, he])
      have h1 : q ∉ keysA tl := by
        intro he; exact h (by simp [keysA]; exact Or.inr (by simpa [keysA] using he))
      simp [lookupA, h0, ih h1]

theorem lastLookup_eq_lookupA {α : Type} (d : List (String × α)) (q : String)
    (h : (keysA d).Nodup) : lastLookup d q = lookupA d q := by
  induction d with
  | nil => simp [lastLookup, lookupA]
  | cons hd tl ih =>
      obtain ⟨k0, v0⟩ := hd
      simp [keysA] at h
      by_cases hq : k0 = q
      · subst hq
        have : lookupA tl k0 = none :=
          lookupA_eq_none_of_not_mem tl k0 (by simpa [keysA] using h.1)
        have hlast : lastLookup tl k0 = none := by
          rw [ih (by simpa [keysA] using h.2)]; exact this
        simp [lastLookup, lookupA, hlast, this]
      · rw [lastLookup, lookupA, if_neg hq, if_neg hq,
          ih (by simpa [keysA] using h.2)]
        cases htl : lookupA tl q <;> rfl

theorem keysA_setA {α : Type} (d : List (String × α)) (key : String) (v : α) :
    keysA (setA d key v) = if key ∈ keysA d then keysA d else keysA d ++ [key] := by
  induction d with
  | nil => simp [setA, keysA]
  | cons hd tl ih =>
      obtain ⟨k0, w⟩ := hd
      by_cases hk : k0 = key
      · subst hk; simp [setA, keysA]
      · have hk' : ¬key = k0 := fun h => hk h.symm
        simp only [setA, if_neg hk, keysA, List.map_cons] at ih ⊢
        rw [ih]
        by_cases hmem : key ∈ List.map Prod.fst tl
        · simp [hmem, hk']
        · simp [hmem, hk']

theorem nodup_keysA_setA {α : Type} (d : List (String × α)) (key : String) (v : α)
    (h : (keysA d).Nodup) : (keysA (setA d key v)).Nodup := by
  rw [keysA_setA]
  by_cases hmem : key ∈ keysA d
  · simpa [hmem] using h
  · simp only [hmem, if_false]
    simpa [List.nodup_append] using And.intro h hmem

/-! ## Lemmas: the state store -/

theorem ctxOrNew_plan (mem : Memory) (uid : String) (now : Int) :
    (ctxOrNew mem uid now).current_plan = planOf mem uid := by
  cases h : lookupA mem uid <;> simp [ctxOrNew, planOf, h, newUserContext]

theorem ctxOrNew_prefs (mem : Memory) (uid : String) (now : Int) :
    (ctxOrNew mem uid now).preferences = prefsOf mem uid := by
  cases h : lookupA mem uid <;> simp [ctxOrNew, prefsOf, h, newUserContext]

theorem ctxOrNew_msgs (mem : Memory) (uid : String) (now : Int) :
    (ctxOrNew mem uid now).messages = msgsOf mem uid := by
  cases h : lookupA mem uid <;> simp [ctxOrNew, msgsOf, h, newUserContext]

theorem get_user_context_of_lookup {mem : Memory} {uid : String} {c : UserContext}
    (now : Int) (h : lookupA mem uid = some c) :
    get_user_context mem uid now = (c, mem) := by
  simp [get_user_context, h]

theorem get_current_plan_of_lookup {mem : Memory} {uid : String} {c : UserContext}
    (now : Int) (h : lookupA mem uid = some c) :
    get_current_plan mem uid now = (c.current_plan, mem) := by
  simp [get_current_plan, get_user_context_of_lookup now h]

theorem lookupA_add_message_self (mem : Memory) (now : Int) (uid role content : String) :
    lookupA (add_message mem now uid role content) uid =
      some { ctxOrNew mem uid now with
             messages := (ctxOrNew mem uid now).messages
                           ++ [{ role := role, content := content, timestamp := now }]
             last_interaction := now } := by
  cases h : lookupA mem uid with
  | some c => simp [add_message, get_user_context, h, ctxOrNew, lookupA_setA_self]
  | none => simp [add_message, get_user_context, h, ctxOrNew, lookupA_setA_self]

theorem lookupA_add_message_ne (mem : Memory) (now : Int) (uid role content : String)
    {u : String} (hu : uid ≠ u) :
    lookupA (add_message mem now uid role content) u = lookupA mem u := by
  cases h : lookupA mem uid with
  | some c => simp [add_message, get_user_context, h, lookupA_setA, hu]
  | none => simp [add_message, get_user_context, h, lookupA_setA, hu]

theorem planOf_add_message (mem : Memory) (now : Int) (uid role content : String)
    (u : String) : planOf (add_message mem now uid role content) u = planOf mem u := by
  by_cases hu : uid = u
  · subst hu
    rw [planOf, lookupA_add_message_self]
    simpa using (ctxOrNew_plan mem uid now)
  · rw [planOf, lookupA_add_message_ne mem now uid role content hu, planOf]

theorem prefsOf_add_message (mem : Memory) (now : Int) (uid role content : String)
    (u : String) : prefsOf (add_message mem now uid role content) u = prefsOf mem u := by
  by_cases hu : uid = u
  · subst hu
    rw [prefsOf, lookupA_add_message_self]
    simpa using (ctxOrNew_prefs mem uid now)
  · rw [prefsOf, lookupA_add_message_ne mem now uid role content hu, prefsOf]

theorem msgsOf_add_message_self (mem : Memory) (now : Int) (uid role content : String) :
    msgsOf (add_message mem now uid role content) uid =
      msgsOf mem uid ++ [{ role := role, content := content, timestamp := now }] := by
  rw [msgsOf, lookupA_add_message_self]
  simpa using congrArg
    (fun l => l ++ [{ role := role, content := content, timestamp := now }])
    (ctxOrNew_msgs mem uid now)

theorem lookupA_update_preferences_self (mem : Memory) (now : Int) (uid : String)
    (prefs : List (String × PyVal)) :
    lookupA (update_preferences mem now uid prefs) uid =
      some { ctxOrNew mem uid now with
             preferences := updA (ctxOrNew mem uid now).preferences prefs
             last_interaction := now } := by
  cases h : lookupA mem uid with
  | some c => simp [update_preferences, get_user_context, h, ctxOrNew, lookupA_setA_self]
  | none => simp [update_preferences, get_user_context, h, ctxOrNew, lookupA_setA_self]

theorem lookupA_update_current_plan_self (mem : Memory) (now : Int) (uid : String)
    (pd : List (String × PyVal)) :
    lookupA (update_current_plan mem now uid pd) uid =
      some { ctxOrNew mem uid now with
             current_plan := updA (ctxOrNew mem uid now).current_plan pd
             last_interaction := now } := by
  cases h : lookupA mem uid with
  | some c => simp [update_current_plan, get_user_context, h, ctxOrNew, lookupA_setA_self]
  | none => simp [update_current_plan, get_user_context, h, ctxOrNew, lookupA_setA_self]

theorem ctxOrNew_of_lookup {mem : Memory} {uid : String} {c : UserContext} (now : Int)
    (h : lookupA mem uid = some c) : ctxOrNew mem uid now = c := by
  simp [ctxOrNew, h]

theorem lookupA_updA_setA {α : Type} (p : List (String × α)) (key q : String) (v : α)
    (hq : key ≠ q) (hnd : (keysA p).Nodup) :
    lookupA (updA p (setA p key v)) q = lookupA p q := by
  rw [updA_lookup, lastLookup_eq_lookupA _ _ (nodup_keysA_setA p key v hnd),
      lookupA_setA, if_neg hq]
  cases lookupA p q <;> rfl

/-! ## Lemmas: the regex engine -/

theorem mapFst_orOpt_none (l : List (List Char × Option (List Char))) :
    l.map (fun r => (r.1, orOpt none r.2)) = l := by
  induction l with
  | nil => rfl
  | cons x xs ih => cases x; simp [orOpt, ih]

theorem runs_litsRE (pat s : List Char) :
    runs (litsRE pat) s =
      if leadsWith pat s = true then [(s.drop pat.length, none)] else [] := by
  induction pat generalizing s with
  | nil => simp [litsRE, runs, leadsWith]
  | cons p ps ih =>
      cases s with
      | nil => simp [litsRE, runs, leadsWith]
      | cons c cs =>
          by_cases hc : c == p
          · have hc' : (p == c) = true := by
              simp at hc; simp [hc]
            simp only [litsRE, runs, hc, if_true, leadsWith, hc', Bool.true_and,
              List.flatMap_cons, List.flatMap_nil, List.append_nil, ih]
            by_cases hl : leadsWith ps cs = true
            · simp [hl, mapFst_orOpt_none, orOpt]
            · simp [hl]
          · have hc' : (p == c) = false := by
              simp at hc ⊢; exact fun h => hc h.symm
            simp [litsRE, runs, hc, leadsWith, hc']

theorem runs_seq_lits (pat : List Char) (R : RE) (s : List Char) :
    runs (.seq (litsRE pat) R) s =
      if leadsWith pat s = true then runs R (s.drop pat.length) else [] := by
  simp only [runs, runs_litsRE]
  by_cases hl : leadsWith pat s = true
  · simp [hl, mapFst_orOpt_none]
  · simp [hl]

theorem runs_seq_plus (p : Char → Bool) (R : RE) (s : List Char) :
    runs (.seq (.plus p) R) s =
      (descRuns (s.takeWhile p).length s).flatMap (fun t => runs R t) := by
  simp only [runs, List.flatMap_map, mapFst_orOpt_none]

theorem runs_seq_grp_plus (p : Char → Bool) (R : RE) (s : List Char) :
    runs (.seq (.grp (.plus p)) R) s =
      (descRuns (s.takeWhile p).length s).flatMap
        (fun t => (runs R t).map
          (fun r2 => (r2.1, some (s.take (s.length - t.length))))) := by
  simp only [runs, List.map_map, List.flatMap_map, Function.comp, orOpt]

theorem research_cons_of_runs_nil {re : RE} {c : Char} {rest : List Char}
    (h : runs re (c :: rest) = []) :
    research re (c :: rest) = research re rest := by
  simp [research, h]

theorem research_cons_of_head {re : RE} {c : Char} {rest : List Char}
    {r : List Char × Option (List Char)}
    (h : (runs re (c :: rest)).head? = some r) :
    research re (c :: rest) = some r := by
  simp [research, h]

theorem leadsWith_false_of_misfit (pat : List Char) :
    ∀ (s : List Char), misfit pat s = true →
      ∀ (rest : List Char), leadsWith pat (s ++ rest) = false := by
  induction pat with
  | nil => intro s h; cases s <;> simp [misfit] at h
  | cons p ps ih =>
      intro s h rest
      cases s with
      | nil => simp [misfit] at h
      | cons c cs =>
          simp only [misfit] at h
          by_cases hc : (p == c) = true
          · rw [if_pos hc] at h
            simp only [List.cons_append, leadsWith, hc, Bool.true_and]
            exact ih cs h rest
          · have hc' : (p == c) = false := by
              cases hpc : (p == c)
              · rfl
              · exact absurd hpc hc
            simp [leadsWith, hc']

theorem research_skip_lits (pat : List Char) (R : RE) (A rest : List Char)
    (h : skipAll pat A = true) :
    research (.seq (litsRE pat) R) (A ++ rest) = research (.seq (litsRE pat) R) rest := by
  induction A with
  | nil => rfl
  | cons c cs ih =>
      simp only [skipAll, Bool.and_eq_true] at h
      have hlw : leadsWith pat (c :: (cs ++ rest)) = false := by
        have := leadsWith_false_of_misfit pat (c :: cs) h.1 rest
        simpa using this
      have hnil : runs (.seq (litsRE pat) R) (c :: (cs ++ rest)) = [] := by
        rw [runs_seq_lits, if_neg]
        simp [hlw]
      rw [List.cons_append, research_cons_of_runs_nil hnil, ih h.2]

theorem descRuns_mem {m : Nat} {s t : List Char} (h : t ∈ descRuns m s) :
    ∃ i, 1 ≤ i ∧ i ≤ m ∧ t = s.drop i := by
  induction m with
  | zero => simp [descRuns] at h
  | succ n ih =>
      simp only [descRuns, List.mem_cons] at h
      rcases h with h | h
      · exact ⟨n + 1, by omega, le_refl _, h⟩
      · obtain ⟨i, h1, h2, h3⟩ := ih h
        exact ⟨i, h1, by omega, h3⟩

theorem head?_flatMap_descRuns {α : Type} (F : List Char → List α) (s : List Char)
    (m k : Nat) (hkm : k ≤ m)
    (hz : ∀ i, k < i → i ≤ m → F (s.drop i) = []) :
    ((descRuns m s).flatMap F).head? = ((descRuns k s).flatMap F).head? := by
  induction m with
  | zero =>
      have h0 : k = 0 := Nat.le_zero.mp hkm
      subst h0; rfl
  | succ n ih =>
      by_cases hk : k = n + 1
      · subst hk; rfl
      · have hk' : k ≤ n := by omega
        rw [descRuns, List.flatMap_cons, hz (n + 1) (by omega) (le_refl _),
          List.nil_append]
        exact ih hk' (fun i h1 h2 => hz i h1 (by omega))

theorem takeWhile_eq_self_of_all {p : Char → Bool} :
    ∀ {l : List Char}, (∀ c ∈ l, p c = true) → l.takeWhile p = l := by
  intro l
  induction l with
  | nil => intro _; rfl
  | cons c cs ih =>
      intro h
      rw [List.takeWhile_cons, if_pos (h c (by simp))]
      rw [ih (fun x hx => h x (by simp [hx]))]

theorem takeWhile_nil_of_head {p : Char → Bool} {c : Char} (l : List Char)
    (h : p c = false) : (c :: l).takeWhile p = [] := by
  rw [List.takeWhile_cons, if_neg (by simp [h])]

/-! ## Lemmas: character classes -/

theorem alpha_not_space {c : Char} (h : asciiAlpha c = true) : pySpace c = false := by
  cases hps : pySpace c
  · rfl
  · exfalso
    rcases (by simpa [pySpace, Bool.or_eq_true, beq_iff_eq, or_assoc] using hps :
        c = ' ' ∨ c = '\t' ∨ c = '\n' ∨ c = '\x0d' ∨ c = '\x0b' ∨ c = '\x0c') with
      h1 | h1 | h1 | h1 | h1 | h1 <;> (subst h1; exact absurd h (by decide))

theorem alpha_not_digit {c : Char} (h : asciiAlpha c = true) : digitC c = false := by
  cases hd : digitC c
  · rfl
  · exfalso
    have h1 : (97 ≤ c.toNat ∧ c.toNat ≤ 122) ∨ (65 ≤ c.toNat ∧ c.toNat ≤ 90) := by
      simpa [asciiAlpha, asciiLower, asciiUpper, Bool.or_eq_true, Bool.and_eq_true,
        decide_eq_true_eq] using h
    have h2 : 48 ≤ c.toNat ∧ c.toNat ≤ 57 := by
      simpa [digitC, Bool.and_eq_true, decide_eq_true_eq] using hd
    omega

theorem alpha_alphaSpace {c : Char} (h : asciiAlpha c = true) : alphaSpace c = true := by
  simp [alphaSpace, h]

theorem space_alphaSpace {c : Char} (h : pySpace c = true) : alphaSpace c = true := by
  simp [alphaSpace, h]

/-! ## Lemmas: soundness of the engine against declarative matching -/

theorem runs_sound (re : RE) :
    ∀ (s : List Char) (r : List Char × Option (List Char)), r ∈ runs re s →
      ∃ u, s = u ++ r.1 ∧ MatchesRE re u := by
  induction re with
  | eps =>
      intro s r h
      simp only [runs, List.mem_singleton] at h
      exact ⟨[], by simp [h], MatchesRE.eps⟩
  | lit c =>
      intro s r h
      cases s with
      | nil => simp [runs] at h
      | cons x xs =>
          by_cases hx : (x == c) = true
          · rw [runs, if_pos hx] at h
            simp only [List.mem_singleton] at h
            have : x = c := by simpa using hx
            subst this
            exact ⟨[x], by simp [h], MatchesRE.lit x⟩
          · rw [runs, if_neg hx] at h
            simp at h
  | cls p =>
      intro s r h
      cases s with
      | nil => simp [runs] at h
      | cons x xs =>
          by_cases hx : p x = true
          · rw [runs, if_pos hx] at h
            simp only [List.mem_singleton] at h
            exact ⟨[x], by simp [h], MatchesRE.cls hx⟩
          · rw [runs, if_neg hx] at h
            simp at h
  | seq a b iha ihb =>
      intro s r h
      rw [runs, List.mem_flatMap] at h
      obtain ⟨r1, hr1, hmap⟩ := h
      rw [List.mem_map] at hmap
      obtain ⟨r2, hr2, hr⟩ := hmap
      obtain ⟨u1, hs1, hm1⟩ := iha s r1 hr1
      obtain ⟨u2, hs2, hm2⟩ := ihb r1.1 r2 hr2
      refine ⟨u1 ++ u2, ?_, MatchesRE.seq hm1 hm2⟩
      rw [hs1, hs2, ← hr]
      simp
  | alt a b iha ihb =>
      intro s r h
      rw [runs, List.mem_append] at h
      rcases h with h | h
      · obtain ⟨u, hs, hm⟩ := iha s r h
        exact ⟨u, hs, MatchesRE.altL hm⟩
      · obtain ⟨u, hs, hm⟩ := ihb s r h
        exact ⟨u, hs, MatchesRE.altR hm⟩
  | opt a iha =>
      intro s r h
      rw [runs, List.mem_append] at h
      rcases h with h | h
      · obtain ⟨u, hs, hm⟩ := iha s r h
        exact ⟨u, hs, MatchesRE.optSome hm⟩
      · simp only [List.mem_singleton] at h
        exact ⟨[], by simp [h], MatchesRE.optNone⟩
  | plus p =>
      intro s r h
      rw [runs, List.mem_map] at h
      obtain ⟨t, ht, hr⟩ := h
      obtain ⟨i, hi1, hi2, hti⟩ := descRuns_mem ht
      have hlen : i ≤ s.length :=
        le_trans hi2 (le_trans (le_refl _) ((List.takeWhile_sublist p).length_le))
      refine ⟨s.take i, ?_, ?_⟩
      · rw [← hr]
        simp [hti, List.take_append_drop]
      · refine MatchesRE.plus ?_ ?_
        · have : (s.take i).length = i := by
            rw [List.length_take]
            omega
          intro hnil
          rw [hnil] at this
          simp at this
          omega
        · intro c hc
          have hsub : s.take i = (s.takeWhile p).take i := by
            conv_lhs => rw [← List.takeWhile_append_dropWhile (p := p) (l := s)]
            rw [List.take_append_of_le_length hi2]
          rw [hsub] at hc
          exact List.mem_takeWhile_imp (List.take_subset i _ hc)
  | grp a iha =>
      intro s r h
      rw [runs, List.mem_map] at h
      obtain ⟨r1, hr1, hr⟩ := h
      obtain ⟨u, hs, hm⟩ := iha s r1 hr1
      refine ⟨u, ?_, MatchesRE.grp hm⟩
      rw [← hr]
      exact hs
  | eol =>
      intro s r h
      by_cases hs : s.isEmpty = true
      · rw [runs, if_pos hs] at h
        simp only [List.mem_singleton] at h
        have : s = [] := by simpa [List.isEmpty_iff_eq_nil] using hs
        exact ⟨[], by simp [h, this], MatchesRE.eol⟩
      · rw [runs, if_neg hs] at h
        simp at h

theorem research_sound (re : RE) :
    ∀ (s : List Char) (r : List Char × Option (List Char)), research re s = some r →
      ∃ pre s₁, s = pre ++ s₁ ∧ (runs re s₁).head? = some r := by
  intro s
  induction s with
  | nil =>
      intro r h
      rw [research] at h
      exact ⟨[], [], rfl, h⟩
  | cons c cs ih =>
      intro r h
      rw [research] at h
      cases hh : (runs re (c :: cs)).head? with
      | some r0 =>
          rw [hh] at h
          exact ⟨[], c :: cs, rfl, by rw [hh]; exact h⟩
      | none =>
          rw [hh] at h
          obtain ⟨pre, s₁, hs, hr⟩ := ih r h
          exact ⟨c :: pre, s₁, by simp [hs], hr⟩

/-- Any match of a pattern of the shape `A (B \s+ (digit-led group))` — the
shape of the departure and return date patterns — consumes a digit. -/
theorem matches_date_pattern_has_digit (A B : RE) (u : List Char)
    (h : MatchesRE (.seq A (.seq B (.seq spacesPlus (.grp datePhraseRE)))) u) :
    ∃ c ∈ u, digitC c = true := by
  cases h with
  | seq h1 h2 =>
      cases h2 with
      | seq h3 h4 =>
          cases h4 with
          | seq h5 h6 =>
              cases h6 with
              | grp h7 =>
                  rw [show datePhraseRE = .seq (.cls digitC)
                      (.seq (.opt (.cls digitC)) (.seq (.opt ordSufRE)
                        (.seq spacesPlus (.seq (.plus wordC)
                          (.opt (.seq spacesPlus fourDigitsRE)))))) from rfl] at h7
                  cases h7 with
                  | seq h8 h9 =>
                      cases h8 with
                      | cls hp =>
                          rename_i c
                          exact ⟨c, by simp, hp⟩

/-- Any match of the adults pattern consumes a digit. -/
theorem matches_adults_has_digit (u : List Char)
    (h : MatchesRE adultsRE u) : ∃ c ∈ u, digitC c = true := by
  rw [show adultsRE = .seq (.grp (.plus digitC))
      (.seq spacesPlus (.alt (strRE "adult") (.alt (strRE "adults")
        (.alt (strRE "people") (strRE "passengers"))))) from rfl] at h
  cases h with
  | seq h1 h2 =>
      cases h1 with
      | grp h3 =>
          cases h3 with
          | plus hne hall =>
              obtain ⟨c, cs, hcc⟩ := List.exists_cons_of_ne_nil hne
              subst hcc
              exact ⟨c, by simp, hall c (by simp)⟩

/-- A digit-requiring pattern finds no match in a digit-free string. -/
theorem research_none_of_no_digit (re : RE)
    (hre : ∀ u, MatchesRE re u → ∃ c ∈ u, digitC c = true)
    (s : List Char) (hs : ∀ c ∈ s, digitC c = false) :
    research re s = none := by
  cases hr : research re s with
  | none => rfl
  | some r =>
      exfalso
      obtain ⟨pre, s₁, hsplit, hhead⟩ := research_sound re s r hr
      have hmem : r ∈ runs re s₁ := List.mem_of_mem_head? (by rw [hhead]; simp)
      obtain ⟨u, hu, hm⟩ := runs_sound re s₁ r hmem
      obtain ⟨c, hc, hd⟩ := hre u hm
      have hcs : c ∈ s := by
        rw [hsplit, hu]
        simp [hc]
      rw [hs c hcs] at hd
      exact absurd hd (by simp)

/-! ## Lemmas: the origin and destination searches on canonical requests -/

theorem runs_alt (a b : RE) (s : List Char) :
    runs (.alt a b) s = runs a s ++ runs b s := rfl

theorem runs_seq_str (s0 : String) (R : RE) (s : List Char) :
    runs (.seq (strRE s0) R) s =
      if leadsWith s0.data s = true then runs R (s.drop s0.data.length) else [] :=
  runs_seq_lits s0.data R s

theorem research_skip_str (s0 : String) (R : RE) (A rest : List Char)
    (h : skipAll s0.data A = true) :
    research (.seq (strRE s0) R) (A ++ rest) = research (.seq (strRE s0) R) rest :=
  research_skip_lits s0.data R A rest h

theorem runs_seq_spaces (R : RE) (s : List Char) :
    runs (.seq spacesPlus R) s =
      (descRuns (s.takeWhile pySpace).length s).flatMap (fun t => runs R t) :=
  runs_seq_plus pySpace R s

theorem runs_seq_spaces_nonspace {c : Char} (R : RE) (rest : List Char)
    (h : pySpace c = false) : runs (.seq spacesPlus R) (c :: rest) = [] := by
  rw [runs_seq_spaces, takeWhile_nil_of_head rest h]
  rfl

theorem runs_seq_spaces_nil (R : RE) : runs (.seq spacesPlus R) [] = [] := by
  rw [runs_seq_spaces]
  rfl

theorem dropWhile_eq_self_of_alpha {l : List Char}
    (h : ∀ c ∈ l, asciiAlpha c = true) : l.dropWhile pySpace = l := by
  cases l with
  | nil => rfl
  | cons c cs =>
      rw [List.dropWhile_cons, if_neg]
      simp [alpha_not_space (h c (by simp))]

theorem pyStripL_of_alpha {l : List Char} (h : ∀ c ∈ l, asciiAlpha c = true) :
    pyStripL l = l := by
  have h2 : l.reverse.dropWhile pySpace = l.reverse :=
    dropWhile_eq_self_of_alpha (fun c hc => h c (by simpa using hc))
  rw [pyStripL, dropWhile_eq_self_of_alpha h, h2, List.reverse_reverse]

theorem leadsWith_append_of_true {pat s : List Char} (h : leadsWith pat s = true)
    (t : List Char) : leadsWith pat (s ++ t) = true := by
  induction pat generalizing s with
  | nil => rfl
  | cons p ps ih =>
      cases s with
      | nil => simp [leadsWith] at h
      | cons c cs =>
          simp only [leadsWith, Bool.and_eq_true] at h
          simp only [List.cons_append, leadsWith, h.1, Bool.true_and]
          exact ih h.2

theorem containsSub_append_of_left {A pat : List Char} (h : containsSub A pat = true)
    (B : List Char) : containsSub (A ++ B) pat = true := by
  induction A with
  | nil =>
      cases pat with
      | nil => cases B with
        | nil => exact h
        | cons b bs => simp [containsSub, leadsWith]
      | cons p ps => simp [containsSub, leadsWith] at h
  | cons c cs ih =>
      simp only [containsSub, Bool.or_eq_true] at h ⊢
      rcases h with h | h
      · exact Or.inl (by simpa using leadsWith_append_of_true h B)
      · exact Or.inr (ih h)

/-- The origin pattern's trailing alternation `(?:\s+to|\s+and)`. -/
theorem origin_trailer_nonspace {c : Char} (rest : List Char) (h : pySpace c = false) :
    runs (.alt (.seq spacesPlus (strRE "to")) (.seq spacesPlus (strRE "and")))
      (c :: rest) = [] := by
  have h1 : runs (.seq spacesPlus (strRE "to")) (c :: rest) = [] :=
    runs_seq_spaces_nonspace _ rest h
  have h2 : runs (.seq spacesPlus (strRE "and")) (c :: rest) = [] :=
    runs_seq_spaces_nonspace _ rest h
  rw [runs_alt, h1, h2]
  rfl

theorem origin_trailer_nil :
    runs (.alt (.seq spacesPlus (strRE "to")) (.seq spacesPlus (strRE "and"))) [] = [] := by
  rw [runs_alt, runs_seq_spaces_nil, runs_seq_spaces_nil]
  rfl

theorem origin_trailer_space_alpha {Y : List Char}
    (hY : ∀ c ∈ Y, asciiAlpha c = true) (hYne : Y ≠ [])
    (hYto : leadsWith ("to".data) Y = false)
    (hYand : leadsWith ("and".data) Y = false) :
    runs (.alt (.seq spacesPlus (strRE "to")) (.seq spacesPlus (strRE "and")))
      (' ' :: Y) = [] := by
  obtain ⟨y, Y1, hYC⟩ := List.exists_cons_of_ne_nil hYne
  have htw : (' ' :: Y).takeWhile pySpace = [' '] := by
    rw [List.takeWhile_cons, if_pos (by decide)]
    rw [hYC, takeWhile_nil_of_head _ (alpha_not_space (hY y (by simp [hYC])))]
  have hd1 : descRuns ((' ' :: Y).takeWhile pySpace).length (' ' :: Y) = [Y] := by
    rw [htw]
    rfl
  have h1 : runs (.seq spacesPlus (strRE "to")) (' ' :: Y) = [] := by
    rw [runs_seq_spaces, hd1]
    simp only [List.flatMap_cons, List.flatMap_nil, List.append_nil]
    rw [show strRE "to" = litsRE ("to".data) from rfl, runs_litsRE, if_neg]
    simp [hYto]
  have h2 : runs (.seq spacesPlus (strRE "and")) (' ' :: Y) = [] := by
    rw [runs_seq_spaces, hd1]
    simp only [List.flatMap_cons, List.flatMap_nil, List.append_nil]
    rw [show strRE "and" = litsRE ("and".data) from rfl, runs_litsRE, if_neg]
    simp [hYand]
  rw [runs_alt, h1, h2]
  rfl

theorem origin_trailer_at_sep (Y : List Char) :
    runs (.alt (.seq spacesPlus (strRE "to")) (.seq spacesPlus (strRE "and")))
      (' ' :: 't' :: 'o' :: ' ' :: Y) = [(' ' :: Y, none)] := by
  have htw : ((' ' :: 't' :: 'o' :: ' ' :: Y).takeWhile pySpace) = [' '] := by
    rw [List.takeWhile_cons, if_pos (by decide), takeWhile_nil_of_head _ (by decide)]
  have h1 : runs (.seq spacesPlus (strRE "to")) (' ' :: 't' :: 'o' :: ' ' :: Y) =
      [(' ' :: Y, none)] := by
    rw [runs_seq_spaces, htw]
    show (descRuns 1 _).flatMap _ = _
    simp only [descRuns, List.drop_succ_cons, List.drop_zero, List.flatMap_cons,
      List.flatMap_nil, List.append_nil]
    rw [show strRE "to" = litsRE ("to".data) from rfl, runs_litsRE, if_pos (by rfl)]
    rfl
  have h2 : runs (.seq spacesPlus (strRE "and")) (' ' :: 't' :: 'o' :: ' ' :: Y) = [] := by
    rw [runs_seq_spaces, htw]
    show (descRuns 1 _).flatMap _ = _
    simp only [descRuns, List.drop_succ_cons, List.drop_zero, List.flatMap_cons,
      List.flatMap_nil, List.append_nil]
    rw [show strRE "and" = litsRE ("and".data) from rfl, runs_litsRE, if_neg]
    simp [leadsWith]
  rw [runs_alt, h1, h2]
  rfl

theorem drop_add_four {α : Type} (e : Nat) (a b c d : α) (l : List α) :
    (a :: b :: c :: d :: l).drop (4 + e) = l.drop e := by
  rw [show 4 + e = e + 1 + 1 + 1 + 1 from by omega]
  simp only [List.drop_succ_cons]

theorem runs_grp_plus (p : Char → Bool) (s : List Char) :
    runs (.grp (.plus p)) s =
      (descRuns (s.takeWhile p).length s).map
        (fun t => (t, some (s.take (s.length - t.length)))) := by
  simp only [runs, List.map_map]
  rfl

theorem endsWithL_cons_of {X1 pat : List Char} (c : Char)
    (h : endsWithL X1 pat = true) : endsWithL (c :: X1) pat = true := by
  rw [endsWithL, List.reverse_cons]
  exact leadsWith_append_of_true h [c]

theorem endsWith_tail {X1 pat : List Char} {c : Char}
    (h : endsWithL (c :: X1) pat = false) : endsWithL X1 pat = false := by
  cases he : endsWithL X1 pat
  · rfl
  · exact absurd (endsWithL_cons_of c he) (by simp [h])

/-- The tail of the origin pattern after its `from` literal. -/
theorem research_origin_skipP (A rest : List Char)
    (h : skipAll ("from".data) A = true) :
    research originRE (A ++ rest) = research originRE rest :=
  research_skip_str "from"
    (.seq spacesPlus (.seq (.grp (.plus alphaSpace))
      (.alt (.seq spacesPlus (strRE "to")) (.seq spacesPlus (strRE "and"))))) A rest h

theorem research_dest_skipP (A rest : List Char)
    (h : skipAll ("to".data) A = true) :
    research destRE (A ++ rest) = research destRE rest :=
  research_skip_str "to" (.seq spacesPlus (.grp (.plus alphaSpace))) A rest h

theorem runs_origin_match (X Y : List Char)
    (hX : ∀ c ∈ X, asciiAlpha c = true) (hY : ∀ c ∈ Y, asciiAlpha c = true)
    (hXne : X ≠ []) (hYne : Y ≠ [])
    (hYto : leadsWith ("to".data) Y = false)
    (hYand : leadsWith ("and".data) Y = false) :
    (runs originRE
        ('f' :: 'r' :: 'o' :: 'm' :: ' ' :: (X ++ (' ' :: 't' :: 'o' :: ' ' :: Y)))).head? =
      some ((' ' :: Y), some X) := by
  obtain ⟨x, X1, hXC⟩ := List.exists_cons_of_ne_nil hXne
  show (runs (.seq (strRE "from")
      (.seq spacesPlus (.seq (.grp (.plus alphaSpace))
        (.alt (.seq spacesPlus (strRE "to")) (.seq spacesPlus (strRE "and"))))))
      ('f' :: 'r' :: 'o' :: 'm' :: ' ' :: (X ++ (' ' :: 't' :: 'o' :: ' ' :: Y)))).head? = _
  rw [runs_seq_str, if_pos (by rfl)]
  rw [show (('f' :: 'r' :: 'o' :: 'm' :: ' '
      :: (X ++ (' ' :: 't' :: 'o' :: ' ' :: Y))).drop (("from".data).length)) =
      ' ' :: (X ++ (' ' :: 't' :: 'o' :: ' ' :: Y)) from rfl]
  rw [runs_seq_spaces]
  have htw : ((' ' :: (X ++ (' ' :: 't' :: 'o' :: ' ' :: Y))).takeWhile pySpace) = [' '] := by
    rw [List.takeWhile_cons, if_pos (by decide), hXC, List.cons_append,
      takeWhile_nil_of_head _ (alpha_not_space (hX x (by simp [hXC])))]
  rw [htw]
  rw [show descRuns (([' '] : List Char)).length
      (' ' :: (X ++ (' ' :: 't' :: 'o' :: ' ' :: Y))) =
      [X ++ (' ' :: 't' :: 'o' :: ' ' :: Y)] from rfl]
  rw [List.flatMap_cons, List.flatMap_nil, List.append_nil]
  rw [runs_seq_grp_plus]
  have htwZ : ((X ++ (' ' :: 't' :: 'o' :: ' ' :: Y)).takeWhile alphaSpace) =
      X ++ (' ' :: 't' :: 'o' :: ' ' :: Y) := by
    apply takeWhile_eq_self_of_all
    intro c hc
    rcases List.mem_append.mp hc with h | h
    · exact alpha_alphaSpace (hX c h)
    · rcases (by simpa using h :
          c = ' ' ∨ c = 't' ∨ c = 'o' ∨ c = ' ' ∨ c ∈ Y) with
        h1 | h1 | h1 | h1 | h1
      · subst h1; decide
      · subst h1; decide
      · subst h1; decide
      · subst h1; decide
      · exact alpha_alphaSpace (hY c h1)
  rw [htwZ]
  have hlenZ : (X ++ (' ' :: 't' :: 'o' :: ' ' :: Y)).length = X.length + (4 + Y.length) := by
    simp [List.length_append]
    omega
  have hz : ∀ i, X.length < i → i ≤ (X ++ (' ' :: 't' :: 'o' :: ' ' :: Y)).length →
      ((runs (.alt (.seq spacesPlus (strRE "to")) (.seq spacesPlus (strRE "and")))
          ((X ++ (' ' :: 't' :: 'o' :: ' ' :: Y)).drop i)).map
        (fun r2 => (r2.1, some ((X ++ (' ' :: 't' :: 'o' :: ' ' :: Y)).take
          ((X ++ (' ' :: 't' :: 'o' :: ' ' :: Y)).length -
            ((X ++ (' ' :: 't' :: 'o' :: ' ' :: Y)).drop i).length))))) = [] := by
    intro i hi1 hi2
    obtain ⟨d, hd1, hid⟩ : ∃ d, 1 ≤ d ∧ i = X.length + d :=
      ⟨i - X.length, by omega, by omega⟩
    subst hid
    have hdrop : (X ++ (' ' :: 't' :: 'o' :: ' ' :: Y)).drop (X.length + d) =
        (' ' :: 't' :: 'o' :: ' ' :: Y).drop d := by
      simp [List.drop_append]
    rw [hdrop]
    have hd4 : d ≤ 4 + Y.length := by omega
    by_cases h1 : d = 1
    · subst h1
      rw [show ((' ' :: 't' :: 'o' :: ' ' :: Y).drop 1) = 't' :: 'o' :: ' ' :: Y from rfl,
        origin_trailer_nonspace _ (by decide), List.map_nil]
    by_cases h2 : d = 2
    · subst h2
      rw [show ((' ' :: 't' :: 'o' :: ' ' :: Y).drop 2) = 'o' :: ' ' :: Y from rfl,
        origin_trailer_nonspace _ (by decide), List.map_nil]
    by_cases h3 : d = 3
    · subst h3
      rw [show ((' ' :: 't' :: 'o' :: ' ' :: Y).drop 3) = ' ' :: Y from rfl,
        origin_trailer_space_alpha hY hYne hYto hYand, List.map_nil]
    · obtain ⟨e, hde⟩ : ∃ e, d = 4 + e := ⟨d - 4, by omega⟩
      subst hde
      rw [drop_add_four]
      cases hYe : Y.drop e with
      | nil => rw [origin_trailer_nil, List.map_nil]
      | cons c cs =>
          have hcY : c ∈ Y := List.drop_subset e Y (by rw [hYe]; simp)
          rw [origin_trailer_nonspace _ (alpha_not_space (hY c hcY)), List.map_nil]
  rw [head?_flatMap_descRuns _ _ _ X.length (by omega) hz]
  have hXlen : X.length = X1.length + 1 := by simp [hXC]
  rw [hXlen, descRuns, List.flatMap_cons]
  have hdt : (X ++ (' ' :: 't' :: 'o' :: ' ' :: Y)).drop (X1.length + 1) =
      ' ' :: 't' :: 'o' :: ' ' :: Y := by
    rw [← hXlen]
    exact List.drop_left X _
  rw [hdt, origin_trailer_at_sep]
  have hcap : (X ++ (' ' :: 't' :: 'o' :: ' ' :: Y)).take
      ((X ++ (' ' :: 't' :: 'o' :: ' ' :: Y)).length -
        (' ' :: 't' :: 'o' :: ' ' :: Y).length) = X := by
    have h1 : (X ++ (' ' :: 't' :: 'o' :: ' ' :: Y)).length -
        (' ' :: 't' :: 'o' :: ' ' :: Y).length = X.length := by
      simp [List.length_append]
    rw [h1]
    exact List.take_left X _
  rw [List.map_cons, List.map_nil, hcap]
  rfl

theorem runs_dest_at (Y : List Char) (hY : ∀ c ∈ Y, asciiAlpha c = true)
    (hYne : Y ≠ []) :
    (runs destRE ('t' :: 'o' :: ' ' :: Y)).head? = some (([] : List Char), some Y) := by
  obtain ⟨y, Y1, hYC⟩ := List.exists_cons_of_ne_nil hYne
  show (runs (.seq (strRE "to") (.seq spacesPlus (.grp (.plus alphaSpace))))
      ('t' :: 'o' :: ' ' :: Y)).head? = _
  rw [runs_seq_str, if_pos (by rfl)]
  rw [show (('t' :: 'o' :: ' ' :: Y).drop (("to".data).length)) = ' ' :: Y from rfl]
  rw [runs_seq_spaces]
  have htw : ((' ' :: Y).takeWhile pySpace) = [' '] := by
    rw [List.takeWhile_cons, if_pos (by decide), hYC,
      takeWhile_nil_of_head _ (alpha_not_space (hY y (by simp [hYC])))]
  rw [htw]
  rw [show descRuns (([' '] : List Char)).length (' ' :: Y) = [Y] from rfl]
  rw [List.flatMap_cons, List.flatMap_nil, List.append_nil]
  rw [runs_grp_plus]
  rw [takeWhile_eq_self_of_all (fun c hc => alpha_alphaSpace (hY c hc))]
  have hYlen : Y.length = Y1.length + 1 := by simp [hYC]
  rw [hYlen, descRuns, List.map_cons, List.head?_cons]
  rw [← hYlen, List.drop_length]
  simp [List.take_length]

theorem research_dest_scan (Y : List Char) :
    ∀ (X : List Char), (∀ c ∈ X, asciiAlpha c = true) →
      endsWithL X ("to".data) = false →
      research destRE (X ++ (' ' :: 't' :: 'o' :: ' ' :: Y)) =
        research destRE ('t' :: 'o' :: ' ' :: Y) := by
  intro X
  induction X with
  | nil =>
      intro _ _
      rw [List.nil_append]
      apply research_cons_of_runs_nil
      show runs (.seq (strRE "to") (.seq spacesPlus (.grp (.plus alphaSpace)))) _ = []
      rw [runs_seq_str, if_neg]
      exact fun h => Bool.noConfusion h
  | cons c X1 ih =>
      intro hXa hXend
      rw [List.cons_append]
      have hskip : runs destRE (c :: (X1 ++ (' ' :: 't' :: 'o' :: ' ' :: Y))) = [] := by
        show runs (.seq (strRE "to") (.seq spacesPlus (.grp (.plus alphaSpace)))) _ = []
        rw [runs_seq_str]
        by_cases hL : leadsWith ("to".data)
            (c :: (X1 ++ (' ' :: 't' :: 'o' :: ' ' :: Y))) = true
        · rw [if_pos hL]
          have hL' : (('t' == c) &&
              leadsWith ['o'] (X1 ++ (' ' :: 't' :: 'o' :: ' ' :: Y))) = true := hL
          have hc : ('t' == c) = true ∧
              leadsWith ['o'] (X1 ++ (' ' :: 't' :: 'o' :: ' ' :: Y)) = true := by
            rw [Bool.and_eq_true] at hL'
            exact hL'
          cases X1 with
          | nil => exact Bool.noConfusion hc.2
          | cons c2 X2 =>
              have hc2 : c2 = 'o' := by
                have h3 : (('o' == c2) &&
                    leadsWith [] (X2 ++ (' ' :: 't' :: 'o' :: ' ' :: Y))) = true := hc.2
                have h4 : leadsWith [] (X2 ++ (' ' :: 't' :: 'o' :: ' ' :: Y)) = true := rfl
                rw [h4, Bool.and_true] at h3
                have h5 : 'o' = c2 := by exact beq_iff_eq.mp h3
                exact h5.symm
              cases X2 with
              | nil =>
                  exfalso
                  have hct : c = 't' := (beq_iff_eq.mp hc.1).symm
                  rw [hct, hc2] at hXend
                  exact absurd hXend (by decide)
              | cons c3 X3 =>
                  rw [show ((c :: ((c2 :: c3 :: X3) ++
                      (' ' :: 't' :: 'o' :: ' ' :: Y))).drop (("to".data).length)) =
                      c3 :: (X3 ++ (' ' :: 't' :: 'o' :: ' ' :: Y)) from rfl]
                  exact runs_seq_spaces_nonspace _ _
                    (alpha_not_space (hXa c3 (by simp)))
        · rw [if_neg hL]
      rw [research_cons_of_runs_nil hskip]
      exact ih (fun a ha => hXa a (by simp [ha])) (endsWith_tail hXend)

/-! ## Claim C8: the expiry sweep -/

/-- C8: `clear_expired_contexts` removes exactly the contexts whose elapsed
time since `last_interaction` strictly exceeds the 24-hour `expiry_time`
threshold and no others, and an immediately repeated sweep removes nothing. -/
theorem c8_sweep_exact_and_idempotent :
    (∀ (mem : Memory) (now : Int) (uid : String) (ctx : UserContext),
        (uid, ctx) ∈ clear_expired_contexts mem now ↔
          (uid, ctx) ∈ mem ∧ ¬(now - ctx.last_interaction > expiry_time))
    ∧ (∀ (mem : Memory) (now : Int),
        clear_expired_contexts (clear_expired_contexts mem now) now =
          clear_expired_contexts mem now) := by
  constructor
  · intro mem now uid ctx
    simp [clear_expired_contexts, List.mem_filter]
  · intro mem now
    rw [clear_expired_contexts, clear_expired_contexts, List.filter_filter]
    simp

/-- C8 witness: a context 90000 seconds stale is swept at the 24-hour
threshold, by the membership characterization at a concrete store. -/
theorem c8_sweep_witness :
    (("u", ({ user_id := "u", messages := [], preferences := [], search_history := [],
              current_plan := [], last_interaction := 0 } : UserContext)) ∈
        clear_expired_contexts
          [("u", { user_id := "u", messages := [], preferences := [], search_history := [],
                   current_plan := [], last_interaction := 0 })] 90000 ↔
      (("u", ({ user_id := "u", messages := [], preferences := [], search_history := [],
                current_plan := [], last_interaction := 0 } : UserContext)) ∈
          [("u", ({ user_id := "u", messages := [], preferences := [], search_history := [],
                    current_plan := [], last_interaction := 0 } : UserContext))]
        ∧ ¬((90000 : Int) - 0 > expiry_time))) :=
  c8_sweep_exact_and_idempotent.1 _ 90000 "u" _

/-! ## Claim C9: merging a flight section is frame-preserving -/

/-- C9: the flight-intent branch's plan write (`_handle_flight_search`, whose
plan mutation is `plan["flight"] = ...` followed by
`update_current_plan`) changes no key of `current_plan` other than
`"flight"`.  The `Nodup` hypothesis states the Python invariant that a dict
has no duplicate keys. -/
theorem c9_flight_merge_overwrites_only_flight (mem : Memory) (now : Int)
    (uid : String) (fi : FlightInfo) (k : String) (hk : k ≠ "flight")
    (hnd : (keysA (planOf mem uid)).Nodup) :
    lookupA (planOf (handle_flight_search mem now uid fi).2 uid) k =
      lookupA (planOf mem uid) k := by
  obtain ⟨c1, h1, hp1⟩ :
      ∃ c1, lookupA (update_preferences mem now uid
          [("flight_preferences", flightInfoVal fi)]) uid = some c1
        ∧ c1.current_plan = planOf mem uid :=
    ⟨_, lookupA_update_preferences_self mem now uid _, by
        simpa using ctxOrNew_plan mem uid now⟩
  simp only [handle_flight_search, get_current_plan_of_lookup now h1]
  rw [planOf, lookupA_update_current_plan_self]
  simp only [Option.map_some', Option.getD_some, ctxOrNew_of_lookup now h1, hp1]
  exact lookupA_updA_setA _ "flight" k _ (fun h => hk h.symm) hnd

/-- C9 witness: at a concrete store whose plan holds a "hotel" section, the
flight write leaves the "hotel" binding unchanged. -/
theorem c9_flight_merge_witness :
    lookupA (planOf (handle_flight_search
        [("u", { user_id := "u", messages := [], preferences := [], search_history := [],
                 current_plan := [("hotel", PyVal.pstr "paris")], last_interaction := 0 })]
        0 "u"
        { origin := "boston".data, destination := "rome".data,
          departure_date := none, return_date := none, adults := 1 }).2 "u") "hotel" =
      lookupA (planOf
        [("u", { user_id := "u", messages := [], preferences := [], search_history := [],
                 current_plan := [("hotel", PyVal.pstr "paris")], last_interaction := 0 })]
        "u") "hotel" :=
  c9_flight_merge_overwrites_only_flight _ 0 "u" _ "hotel" (by decide)
    (by simp [planOf, lookupA, keysA])

/-! ## Lemmas: the greeting branch -/

theorem isEmpty_append_singleton {α : Type} (l : List α) (x : α) :
    (l ++ [x]).isEmpty = false := by
  cases l <;> rfl

theorem generate_response_greeting {mem : Memory} {uid : String} {c : UserContext}
    (now : Int) (m : String)
    (hg : is_greeting (pyStripL (pyLowerL m.data)) = true)
    (hc : lookupA mem uid = some c) :
    generate_response mem now uid m = .ok (get_greeting_response c, mem) := by
  simp [generate_response, get_user_context_of_lookup now hc, hg]

theorem greeting_reply_cases (c : UserContext) :
    get_greeting_response c = firstGreetingReply
      ∨ get_greeting_response c = againGreetingReply := by
  rw [get_greeting_response]
  by_cases h : (c.messages.isEmpty || decide (c.messages.length ≤ 2)) = true
  · left; rw [if_pos h]
  · right; rw [if_neg h]

/-! ## Claim C4: first-time versus returning greeting -/

/-- C4: on a greeting-triggering turn the reply is the first-time greeting
exactly when the context holds at most 2 messages once the inbound user
message has been appended, and the "greeting again" text otherwise. -/
theorem c4_greeting_first_vs_returning (mem : Memory) (now : Int) (uid m : String)
    (hg : is_greeting (pyStripL (pyLowerL m.data)) = true) :
    (process_message mem now uid m).map Prod.fst =
      Except.ok (if (msgsOf mem uid).length + 1 ≤ 2 then firstGreetingReply
                 else againGreetingReply) := by
  have h1 := lookupA_add_message_self mem now uid "user" m
  have hgen := generate_response_greeting now m hg h1
  simp only [process_message, hgen, bind, Except.bind, pure, Except.pure, Except.map]
  simp [get_greeting_response, ctxOrNew_msgs, isEmpty_append_singleton]

/-- C4 witness: a fresh user gets the first-time greeting; a context already
holding two messages gets the "greeting again" text. -/
theorem c4_greeting_witness :
    (process_message [] 0 "u" "hello").map Prod.fst = Except.ok firstGreetingReply
    ∧ (process_message
        [("u", { user_id := "u",
                 messages := [{ role := "user", content := "x", timestamp := 0 },
                              { role := "assistant", content := "y", timestamp := 0 }],
                 preferences := [], search_history := [], current_plan := [],
                 last_interaction := 0 })] 1 "u" "hello").map Prod.fst =
      Except.ok againGreetingReply := by
  constructor
  · have h := c4_greeting_first_vs_returning [] 0 "u" "hello" (by decide)
    simpa [msgsOf, lookupA] using h
  · have h := c4_greeting_first_vs_returning
      [("u", { user_id := "u",
               messages := [{ role := "user", content := "x", timestamp := 0 },
                            { role := "assistant", content := "y", timestamp := 0 }],
               preferences := [], search_history := [], current_plan := [],
               last_interaction := 0 })] 1 "u" "hello" (by decide)
    simpa [msgsOf, lookupA] using h

/-! ## Claim C10: greeting keywords shadow every intent -/

/-- C10: any message whose lowercased text contains a greeting keyword as a
substring (e.g. "hi" inside "delhi") gets a greeting reply — the policy never
reaches the extractors — and the turn leaves both current_plan and
preferences unchanged. -/
theorem c10_greeting_shadows_intents (mem : Memory) (now : Int) (uid m : String)
    (hg : is_greeting (pyStripL (pyLowerL m.data)) = true) :
    ((process_message mem now uid m).map Prod.fst = Except.ok firstGreetingReply
       ∨ (process_message mem now uid m).map Prod.fst = Except.ok againGreetingReply)
    ∧ (process_message mem now uid m).map (fun r => planOf r.2 uid) =
        Except.ok (planOf mem uid)
    ∧ (process_message mem now uid m).map (fun r => prefsOf r.2 uid) =
        Except.ok (prefsOf mem uid) := by
  have h1 := lookupA_add_message_self mem now uid "user" m
  have hgen := generate_response_greeting now m hg h1
  refine ⟨?_, ?_, ?_⟩
  · rcases greeting_reply_cases
        { ctxOrNew mem uid now with
          messages := (ctxOrNew mem uid now).messages
              ++ [{ role := "user", content := m, timestamp := now }]
          last_interaction := now } with hr | hr
    · left
      simp only [process_message, hgen, bind, Except.bind, pure, Except.pure, Except.map, hr]
    · right
      simp only [process_message, hgen, bind, Except.bind, pure, Except.pure, Except.map, hr]
  · simp only [process_message, hgen, bind, Except.bind, pure, Except.pure, Except.map]
    simp [planOf_add_message]
  · simp only [process_message, hgen, bind, Except.bind, pure, Except.pure, Except.map]
    simp [prefsOf_add_message]

/-- C10 witness: a fully well-formed flight request that happens to contain
"hi" inside "delhi" is answered by a greeting, with plan and preferences
untouched. -/
theorem c10_greeting_shadows_witness :
    ((process_message [] 0 "u" "book a flight from delhi to rome").map Prod.fst =
        Except.ok firstGreetingReply
      ∨ (process_message [] 0 "u" "book a flight from delhi to rome").map Prod.fst =
        Except.ok againGreetingReply)
    ∧ (process_message [] 0 "u" "book a flight from delhi to rome").map
        (fun r => planOf r.2 "u") = Except.ok (planOf [] "u")
    ∧ (process_message [] 0 "u" "book a flight from delhi to rome").map
        (fun r => prefsOf r.2 "u") = Except.ok (prefsOf [] "u") :=
  c10_greeting_shadows_intents [] 0 "u" "book a flight from delhi to rome" (by decide)

/-! ## Claim C5: hotel intent without a city code -/

/-- C5: when hotel intent is extracted but no city code is resolved, the turn
replies with the IATA-code clarifying question, raises nothing, and leaves the
user's current_plan untouched. -/
theorem c5_hotel_no_code_clarifies (mem : Memory) (now : Int) (uid m : String)
    (city : List Char)
    (hg : is_greeting (pyStripL (pyLowerL m.data)) = false)
    (hf : extract_flight_info (pyStripL (pyLowerL m.data)) = none)
    (hh : extract_hotel_info (pyStripL (pyLowerL m.data)) =
            some { city := city, city_code := none }) :
    (process_message mem now uid m).map Prod.fst =
      Except.ok ("I need a city code to search for hotels in " ++ String.mk city ++ ". "
        ++ "Could you provide the 3-letter IATA code for " ++ String.mk city
        ++ "? For example, NYC for New York City.")
    ∧ (process_message mem now uid m).map (fun r => planOf r.2 uid) =
        Except.ok (planOf mem uid) := by
  have h1 := lookupA_add_message_self mem now uid "user" m
  have hgen : generate_response (add_message mem now uid "user" m) now uid m =
      .ok ("I need a city code to search for hotels in " ++ String.mk city ++ ". "
        ++ "Could you provide the 3-letter IATA code for " ++ String.mk city
        ++ "? For example, NYC for New York City.", add_message mem now uid "user" m) := by
    simp [generate_response, get_user_context_of_lookup now h1, hg, hf, hh,
      handle_hotel_search]
  constructor
  · simp only [process_message, hgen, bind, Except.bind, pure, Except.pure, Except.map]
  · simp only [process_message, hgen, bind, Except.bind, pure, Except.pure, Except.map]
    simp [planOf_add_message]

/-- C5 witness: "find a hotel in paris" extracts city "paris" with no code,
replies with the clarifying question, and leaves the plan unchanged. -/
theorem c5_hotel_no_code_witness :
    (process_message [] 0 "u" "find a hotel in paris").map Prod.fst =
      Except.ok ("I need a city code to search for hotels in " ++ String.mk ("paris".data)
        ++ ". " ++ "Could you provide the 3-letter IATA code for " ++ String.mk ("paris".data)
        ++ "? For example, NYC for New York City.")
    ∧ (process_message [] 0 "u" "find a hotel in paris").map (fun r => planOf r.2 "u") =
        Except.ok (planOf [] "u") :=
  c5_hotel_no_code_clarifies [] 0 "u" "find a hotel in paris" ("paris".data)
    (by decide) (by decide) (by decide)

/-! ## Claim C6: country-code resolution -/

/-- C6: country-name resolution is case-insensitive and alias-aware — any
spelling lowercasing to "usa", "america" or "united states" resolves to "US" —
"Wakanda" resolves to nothing, and a city-search turn whose country is
unresolvable replies with the ISO-code clarifying question without touching
current_plan. -/
theorem c6_country_code_resolution :
    (∀ s : List Char,
        (pyLowerL s = "usa".data ∨ pyLowerL s = "america".data
          ∨ pyLowerL s = "united states".data) →
        get_country_code s = some "US")
    ∧ get_country_code ("Wakanda".data) = none
    ∧ (∀ (mem : Memory) (now : Int) (uid m : String) (country : List Char)
          (kw : Option (List Char)),
        is_greeting (pyStripL (pyLowerL m.data)) = false →
        extract_flight_info (pyStripL (pyLowerL m.data)) = none →
        extract_hotel_info (pyStripL (pyLowerL m.data)) = none →
        extract_city_info (pyStripL (pyLowerL m.data)) =
          some { country := country, keyword := kw } →
        get_country_code country = none →
        (process_message mem now uid m).map Prod.fst =
          Except.ok ("I need a country code to search for cities in "
            ++ String.mk country ++ ". "
            ++ "Could you provide the 2-letter ISO code for " ++ String.mk country
            ++ "? For example, US for United States.")
        ∧ (process_message mem now uid m).map (fun r => planOf r.2 uid) =
            Except.ok (planOf mem uid)) := by
  refine ⟨?_, by decide, ?_⟩
  · intro s h
    rcases h with h | h | h <;> · rw [get_country_code, h]; rfl
  · intro mem now uid m country kw hg hf hh hc hcc
    have h1 := lookupA_add_message_self mem now uid "user" m
    have hgen : generate_response (add_message mem now uid "user" m) now uid m =
        .ok ("I need a country code to search for cities in " ++ String.mk country ++ ". "
          ++ "Could you provide the 2-letter ISO code for " ++ String.mk country
          ++ "? For example, US for United States.", add_message mem now uid "user" m) := by
      simp [generate_response, get_user_context_of_lookup now h1, hg, hf, hh, hc, hcc,
        handle_city_search]
    constructor
    · simp only [process_message, hgen, bind, Except.bind, pure, Except.pure, Except.map]
    · simp only [process_message, hgen, bind, Except.bind, pure, Except.pure, Except.map]
      simp [planOf_add_message]

/-- C6 witness: "USA" resolves to US; "show me cities in wakanda" gets the
clarifying question and leaves the plan unchanged. -/
theorem c6_country_code_witness :
    get_country_code ("USA".data) = some "US"
    ∧ ((process_message [] 0 "u" "show me cities in wakanda").map Prod.fst =
        Except.ok ("I need a country code to search for cities in "
          ++ String.mk ("wakanda".data) ++ ". "
          ++ "Could you provide the 2-letter ISO code for " ++ String.mk ("wakanda".data)
          ++ "? For example, US for United States.")
      ∧ (process_message [] 0 "u" "show me cities in wakanda").map
          (fun r => planOf r.2 "u") = Except.ok (planOf [] "u")) :=
  ⟨c6_country_code_resolution.1 ("USA".data) (Or.inl (by decide)),
   c6_country_code_resolution.2.2 [] 0 "u" "show me cities in wakanda"
     ("wakanda".data) none (by decide) (by decide) (by decide) (by decide) (by decide)⟩

/-! ## Claim C2: flight extraction is a strict AND -/

/-- C2: for any message carrying a flight keyword, a miss of either the origin
pattern or the destination pattern makes the whole extraction yield nothing —
never a partial result — and on the spec's example message the policy falls
through to the default capability reply. -/
theorem c2_flight_extraction_strict_and :
    (∀ msg : List Char,
        (containsSub msg ("flight".data) || containsSub msg ("fly".data)) = true →
        searchGroup originRE msg = none ∨ searchGroup destRE msg = none →
        extract_flight_info msg = none)
    ∧ (process_message [] 0 "u" "I want a flight to Paris").map Prod.fst =
        Except.ok defaultReply := by
  constructor
  · intro msg hkw h
    have hcond : (!containsSub msg ("flight".data) && !containsSub msg ("fly".data))
        = false := by
      rw [← Bool.not_or, hkw]
      rfl
    rw [extract_flight_info, if_neg (by simp [hcond])]
    rcases h with h | h
    · rw [h]
    · rw [h]
      all_goals first
      | rfl
      | (cases searchGroup originRE msg <;> rfl)
  · rfl

/-- C2 witness: "i want a flight to paris" has the flight keyword, misses the
origin pattern, and extraction returns nothing. -/
theorem c2_flight_extraction_witness :
    extract_flight_info ("i want a flight to paris".data) = none :=
  c2_flight_extraction_strict_and.1 ("i want a flight to paris".data)
    (by decide) (Or.inl (by decide))

/-! ## Claim C1: flight extraction on "from X to Y" requests -/

/-- C1 counterexample: "i want to fly from boston to rome" carries the flight
keyword "fly" and contains "from boston to rome", yet the extracted
destination is "fly from boston to rome" — the unanchored destination regex
binds to the first "to " in the message — not "rome" as the claim requires. -/
theorem c1_flight_from_to_counterexample :
    containsSub ("i want to fly from boston to rome".data) ("fly".data) = true
    ∧ containsSub ("i want to fly from boston to rome".data)
        ("from boston to rome".data) = true
    ∧ (extract_flight_info ("i want to fly from boston to rome".data)).map
        FlightInfo.origin = some ("boston".data)
    ∧ (extract_flight_info ("i want to fly from boston to rome".data)).map
        FlightInfo.destination = some ("fly from boston to rome".data)
    ∧ (extract_flight_info ("i want to fly from boston to rome".data)).map
        FlightInfo.destination ≠ some ("rome".data) := by
  refine ⟨by decide, by decide, by decide, by decide, ?_⟩
  intro h
  rw [show (extract_flight_info ("i want to fly from boston to rome".data)).map
      FlightInfo.destination = some ("fly from boston to rome".data) from by decide] at h
  exact absurd (Option.some.inj h) (by decide)

/-- C1 amended: on a canonical request "book a flight from X to Y" — X, Y
nonempty alphabetic words, X not ending in the literal "to", Y not starting
with the literal "to" or "and" (either would divert the greedy origin
capture, and an earlier "to " diverts the destination capture, as the
counterexample shows) — extraction returns origin X, destination Y, both date
fields null and the default single adult. -/
theorem c1_flight_from_to_amended (X Y : List Char)
    (hX : ∀ c ∈ X, asciiAlpha c = true) (hY : ∀ c ∈ Y, asciiAlpha c = true)
    (hXne : X ≠ []) (hYne : Y ≠ [])
    (hXto : endsWithL X ("to".data) = false)
    (hYto : leadsWith ("to".data) Y = false)
    (hYand : leadsWith ("and".data) Y = false) :
    extract_flight_info (("book a flight from ".data) ++ X ++ (" to ".data) ++ Y) =
      some { origin := X, destination := Y, departure_date := none,
             return_date := none, adults := 1 } := by
  have hassoc : ("book a flight from ".data : List Char) ++ X ++ (" to ".data) ++ Y =
      ("book a flight from ".data) ++ (X ++ (' ' :: 't' :: 'o' :: ' ' :: Y)) := by
    rw [List.append_assoc, List.append_assoc]
    rfl
  have hassoc2 : ("book a flight from ".data : List Char)
        ++ (X ++ (' ' :: 't' :: 'o' :: ' ' :: Y)) =
      ("book a flight ".data)
        ++ ('f' :: 'r' :: 'o' :: 'm' :: ' ' :: (X ++ (' ' :: 't' :: 'o' :: ' ' :: Y))) := rfl
  have horigin : searchGroup originRE
      (("book a flight from ".data) ++ X ++ (" to ".data) ++ Y) = some X := by
    rw [searchGroup, hassoc, hassoc2, research_origin_skipP _ _ (by decide),
      research_cons_of_head (runs_origin_match X Y hX hY hXne hYne hYto hYand)]
    rfl
  have hdest : searchGroup destRE
      (("book a flight from ".data) ++ X ++ (" to ".data) ++ Y) = some Y := by
    rw [searchGroup, hassoc, research_dest_skipP _ _ (by decide),
      research_dest_scan Y X hX hXto,
      research_cons_of_head (runs_dest_at Y hY hYne)]
    rfl
  have hnodig : ∀ c ∈ (("book a flight from ".data : List Char) ++ X
      ++ (" to ".data) ++ Y), digitC c = false := by
    intro c hc
    rw [hassoc] at hc
    rcases List.mem_append.mp hc with h | h
    · have hall : ∀ a ∈ ("book a flight from ".data : List Char), digitC a = false := by
        decide
      exact hall c h
    · rcases List.mem_append.mp h with h | h
      · exact alpha_not_digit (hX c h)
      · rcases (by simpa using h :
            c = ' ' ∨ c = 't' ∨ c = 'o' ∨ c = ' ' ∨ c ∈ Y) with
          h1 | h1 | h1 | h1 | h1
        · subst h1; decide
        · subst h1; decide
        · subst h1; decide
        · subst h1; decide
        · exact alpha_not_digit (hY c h1)
  have hdep : research departureRE
      (("book a flight from ".data) ++ X ++ (" to ".data) ++ Y) = none :=
    research_none_of_no_digit _
      (fun u h => matches_date_pattern_has_digit
        (.alt (strRE "on") (.alt (strRE "departing") (strRE "leaving")))
        (.opt (.seq spacesPlus (strRE "on"))) u h) _ hnodig
  have hret : research returnRE
      (("book a flight from ".data) ++ X ++ (" to ".data) ++ Y) = none :=
    research_none_of_no_digit _
      (fun u h => matches_date_pattern_has_digit
        (.alt (strRE "return") (.alt (strRE "returning") (strRE "coming back")))
        (.opt (.seq spacesPlus (strRE "on"))) u h) _ hnodig
  have hadults : research adultsRE
      (("book a flight from ".data) ++ X ++ (" to ".data) ++ Y) = none :=
    research_none_of_no_digit _ (fun u h => matches_adults_has_digit u h) _ hnodig
  have hkw : containsSub (("book a flight from ".data : List Char) ++ X
      ++ (" to ".data) ++ Y) ("flight".data) = true := by
    rw [hassoc]
    exact containsSub_append_of_left (by decide) _
  have hcond : (!containsSub (("book a flight from ".data : List Char) ++ X
        ++ (" to ".data) ++ Y) ("flight".data)
      && !containsSub (("book a flight from ".data : List Char) ++ X
        ++ (" to ".data) ++ Y) ("fly".data)) = false := by
    rw [hkw]
    rfl
  rw [extract_flight_info, if_neg (fun h => Bool.noConfusion (hcond.symm.trans h))]
  rw [horigin, hdest]
  dsimp only
  unfold searchGroup
  rw [hdep, hret, hadults, pyStripL_of_alpha hX, pyStripL_of_alpha hY]
  rfl

/-- C1 witness: the claim's own example "book a flight from Boston to Rome"
yields origin "Boston", destination "Rome", one adult and null dates. -/
theorem c1_flight_from_to_witness :
    extract_flight_info (("book a flight from ".data) ++ ("Boston".data)
        ++ (" to ".data) ++ ("Rome".data)) =
      some { origin := ("Boston".data), destination := ("Rome".data),
             departure_date := none, return_date := none, adults := 1 } :=
  c1_flight_from_to_amended ("Boston".data) ("Rome".data)
    (by decide) (by decide) (by decide) (by decide) (by decide) (by decide) (by decide)

/-! ## Claim C3: plan enhancement -/

theorem isOkE_bind {ε α β : Type} (x : Except ε α) (f : α → Except ε β)
    (h : ∀ a, isOkE (f a) = false) : isOkE (x >>= f) = false := by
  cases x with
  | error e => rfl
  | ok a => exact h a

/-- C3: `enhance_tour_plan` never returns an augmented plan.  Its response
clean-up guard `if "" in enhanced_plan` is true for every string, and the
branch evaluates `enhanced_plan.split("json")[1].split("")`: when the
gateway's reply lacks "json" the `[1]` raises IndexError (converted by the
`except` clause into the parse-failure Exception), and when it contains
"json" the empty-separator `.split("")` raises an uncaught ValueError.  In
particular a perfectly well-formed JSON itinerary reply still fails. -/
theorem c3_enhance_never_returns :
    (∀ (plan : List (String × PyVal)) (raw : String),
        isOkE (enhance_tour_plan plan raw) = false)
    ∧ enhance_tour_plan
        [("flight", PyVal.pdict [("origin", PyVal.pstr "BOS"),
                                 ("destination", PyVal.pstr "FCO")])]
        "\x7b\"summary\": \"A wonderful trip\", \"itinerary\": []\x7d" =
      .error (.exception
        "Failed to parse LLM response for enhanced plan: list index out of range") := by
  constructor
  · intro plan raw
    rw [enhance_tour_plan]
    refine isOkE_bind _ _ fun a1 => ?_
    refine isOkE_bind _ _ fun a2 => ?_
    refine isOkE_bind _ _ fun a3 => ?_
    refine isOkE_bind _ _ fun a4 => ?_
    refine isOkE_bind _ _ fun a5 => ?_
    refine isOkE_bind _ _ fun a6 => ?_
    refine isOkE_bind _ _ fun a7 => ?_
    refine isOkE_bind _ _ fun a8 => ?_
    dsimp only
    split <;> rfl
  · rfl

/-! ## Claim C7: the plan summary -/

theorem pyJoinStr_head_append (sep x : String) (xs : List String) :
    ∃ t : List Char, (pyJoinStr sep (x :: xs)).data = x.data ++ t := by
  rw [pyJoinStr]
  suffices h : ∀ (a : String),
      ∃ t, (xs.foldl (fun acc y => acc ++ sep ++ y) a).data = a.data ++ t from h x
  induction xs with
  | nil => exact fun a => ⟨[], by simp⟩
  | cons y ys ih =>
      intro a
      obtain ⟨t, ht⟩ := ih (a ++ sep ++ y)
      exact ⟨sep.data ++ y.data ++ t, by simp [ht, String.data_append]⟩

theorem tour_plan_join_ne_notEnough (rest : List String) :
    pyJoinStr "\n" (tourPlanHeader :: rest) ≠ notEnoughReply := by
  intro h
  obtain ⟨t, ht⟩ := pyJoinStr_head_append "\n" tourPlanHeader rest
  rw [h] at ht
  have h1 : notEnoughReply.data.head? = some 'I' := rfl
  have h2 : (tourPlanHeader.data ++ t).head? = some 'H' := rfl
  rw [ht, h2] at h1
  exact absurd (Option.some.inj h1) (by decide)

/-- C7: tour-plan summary generation returns the "not enough information"
message exactly when current_plan is empty, and a plan holding only a flight
section yields the header, the flight lines alone (with the return line only
when the return date is truthy) and the closing question — no hotel or
activities line. -/
theorem c7_tour_plan_summary :
    (∀ (mem : Memory) (uid : String) (now : Int),
        planOf mem uid = [] →
        (generate_tour_plan mem uid now).map Prod.fst = Except.ok notEnoughReply)
    ∧ (∀ (mem : Memory) (uid : String) (now : Int),
        (generate_tour_plan mem uid now).map Prod.fst = Except.ok notEnoughReply →
        planOf mem uid = [])
    ∧ (∀ (mem : Memory) (uid : String) (now : Int) (o d dep ret ad : PyVal),
        planOf mem uid =
          [("flight", PyVal.pdict [("origin", o), ("destination", d),
              ("departure_date", dep), ("return_date", ret), ("adults", ad)])] →
        (generate_tour_plan mem uid now).map Prod.fst =
          Except.ok (pyJoinStr "\n" ([tourPlanHeader]
            ++ (["âœˆï¸ Flight: From " ++ pyStr o ++ " to " ++ pyStr d
                   ++ "\n   Departure: " ++ pyStr dep]
                 ++ (if pyTruthy ret then ["   Return: " ++ pyStr ret] else [])
                 ++ ["   Passengers: " ++ pyStr ad ++ " adult(s)"])
            ++ [tourPlanClosing]))) := by
  refine ⟨?_, ?_, ?_⟩
  · intro mem uid now hplan
    cases h : lookupA mem uid with
    | none => simp [generate_tour_plan, get_current_plan, get_user_context, h,
        newUserContext, pure, Except.pure, Except.map]
    | some c =>
        have hc : c.current_plan = [] := by simpa [planOf, h] using hplan
        simp [generate_tour_plan, get_current_plan_of_lookup now h, hc,
          pure, Except.pure, Except.map]
  · intro mem uid now hok
    cases h : lookupA mem uid with
    | none => simp [planOf, h]
    | some c =>
        simp only [planOf, h, Option.map_some', Option.getD_some]
        by_contra hne
        have hie : c.current_plan.isEmpty = false := by
          cases hcp : c.current_plan with
          | nil => exact absurd hcp hne
          | cons x xs => rfl
        rw [generate_tour_plan, get_current_plan_of_lookup now h] at hok
        dsimp only at hok
        rw [hie] at hok
        rw [if_neg (by simp)] at hok
        revert hok
        cases h1 : flightSectionParts c.current_plan with
        | error e => simp [bind, Except.bind, Except.map]
        | ok p1 =>
            cases h2 : hotelSectionParts c.current_plan with
            | error e => simp [bind, Except.bind, Except.map]
            | ok p2 =>
                cases h3 : activitiesSectionParts c.current_plan with
                | error e => simp [bind, Except.bind, Except.map]
                | ok p3 =>
                    simp only [bind, Except.bind, pure, Except.pure, Except.map]
                    intro hok
                    exact tour_plan_join_ne_notEnough _ (Except.ok.inj hok)
  · intro mem uid now o d dep ret ad hplan
    cases h : lookupA mem uid with
    | none => simp [planOf, h] at hplan
    | some c =>
        have hc : c.current_plan =
            [("flight", PyVal.pdict [("origin", o), ("destination", d),
                ("departure_date", dep), ("return_date", ret), ("adults", ad)])] := by
          simpa [planOf, h] using hplan
        simp [generate_tour_plan, get_current_plan_of_lookup now h, hc,
          flightSectionParts, hotelSectionParts, activitiesSectionParts,
          lookupA, pyIndexD, pyGetD, bind, Except.bind, pure, Except.pure, Except.map]

/-- C7 witness: the empty plan gets the "not enough" message, and a concrete
flight-only plan gets exactly the flight lines between header and closing. -/
theorem c7_tour_plan_witness :
    (generate_tour_plan [] "u" 0).map Prod.fst = Except.ok notEnoughReply
    ∧ (generate_tour_plan
        [("u", { user_id := "u", messages := [], preferences := [], search_history := [],
                 current_plan := [("flight", PyVal.pdict
                   [("origin", PyVal.pstr "boston"), ("destination", PyVal.pstr "rome"),
                    ("departure_date", PyVal.pnone), ("return_date", PyVal.pnone),
                    ("adults", PyVal.pint 1)])],
                 last_interaction := 0 })] "u" 0).map Prod.fst =
      Except.ok (pyJoinStr "\n" ([tourPlanHeader]
        ++ (["âœˆï¸ Flight: From " ++ pyStr (PyVal.pstr "boston") ++ " to "
               ++ pyStr (PyVal.pstr "rome") ++ "\n   Departure: " ++ pyStr PyVal.pnone]
             ++ (if pyTruthy PyVal.pnone then ["   Return: " ++ pyStr PyVal.pnone] else [])
             ++ ["   Passengers: " ++ pyStr (PyVal.pint 1) ++ " adult(s)"])
        ++ [tourPlanClosing])) :=
  ⟨c7_tour_plan_summary.1 [] "u" 0 rfl,
   c7_tour_plan_summary.2.2 _ "u" 0 (PyVal.pstr "boston") (PyVal.pstr "rome")
     PyVal.pnone PyVal.pnone (PyVal.pint 1) rfl⟩

end Amedaus
